import Mathlib

/-!
# Hospital scheduling: a shallow embedding of `HS.cpp`

The in-memory state of `HospitalSystem` (its four vectors) is a record of
lists, and every method of the C++ program that reads or writes that state is
a function on it.

Conventions of the embedding.

* A `std::string` is a Lean `String`, read as the sequence of its `char`s;
  `==` on strings is string equality, `substr(0, 10)` is `String.take 10`,
  `to_string` of a non-negative integer is `toString` on `Nat`.
* A pointer into one of the vectors (`this`, the result of `findDoctor`,
  `findAppointment`, `authenticateUser`) is the index of the element; the null
  pointer is `none`.
* A method is a function of the system state and the index of its receiver.
  It answers `none` only when that index names no element, which the program
  never does: every receiver comes from `authenticateUser` or `findDoctor`.
* What a method reads from `cin`, `rand()` and the clock are arguments.
* `std::hash<string>` is an argument `hasher : String → Nat`.
* Console output and the audit file are not part of the state; the message a
  method prints is the outcome it returns.
-/

namespace HospitalScheduling

/-! ## Data model -/

/-- Class `Appointment`. -/
structure Appointment where
  apptID : String := ""
  doctorID : String := ""
  patientID : String := ""
  dateTime : String := ""
  status : String := ""
  isEmergency : Bool := false
deriving DecidableEq, Repr

/-- Class `User`; `password` holds the stored digest. -/
structure User where
  userID : String
  name : String
  password : String
  role : String
deriving DecidableEq, Repr

/-- Class `Doctor`. -/
structure Doctor extends User where
  specialization : String
  availableSlots : List String := []
  onEmergencyDuty : Bool := false
deriving DecidableEq, Repr

/-- Class `Patient`. -/
structure Patient extends User where
  medicalHistory : String
  appointmentIDs : List String := []
deriving DecidableEq, Repr

/-- Class `Admin`. -/
structure Admin extends User where
deriving DecidableEq, Repr

/-- Class `HospitalSystem`: the four collections. -/
structure HospitalSystem where
  doctors : List Doctor
  patients : List Patient
  appointments : List Appointment
  admins : List Admin
deriving DecidableEq, Repr

/-! ## Passwords -/

/-- Function `hashPassword`: `to_string(hasher(password))`. -/
def hashPassword (hasher : String → Nat) (password : String) : String :=
  toString (hasher password)

/-- Method `User::verifyPassword`. -/
def User.verifyPassword (hasher : String → Nat) (u : User) (inputPassword : String) : Bool :=
  hashPassword hasher inputPassword == u.password

/-- Constructor `User(id, n, pwd, r)`: the password is stored hashed. -/
def User.new (hasher : String → Nat) (id n pwd r : String) : User :=
  { userID := id, name := n, password := hashPassword hasher pwd, role := r }

/-- Constructor `Doctor(id, n, pwd, spec)`. -/
def Doctor.new (hasher : String → Nat) (id n pwd spec : String) : Doctor :=
  { User.new hasher id n pwd "doctor" with specialization := spec }

/-- Constructor `Patient(id, n, pwd, history)`. -/
def Patient.new (hasher : String → Nat) (id n pwd history : String) : Patient :=
  { User.new hasher id n pwd "patient" with medicalHistory := history }

/-- Constructor `Admin(id, n, pwd)`. -/
def Admin.new (hasher : String → Nat) (id n pwd : String) : Admin :=
  { User.new hasher id n pwd "admin" with }

/-! ## Lookups -/

/-- The loop `for (auto &x : xs) if (p x) return &x; return nullptr;`: the index
of the first element satisfying `p`. -/
def firstIndex {α : Type} (p : α → Bool) : List α → Option Nat
  | [] => none
  | x :: rest => if p x then some 0 else (firstIndex p rest).map (· + 1)

/-- Method `HospitalSystem::findAppointment`. -/
def HospitalSystem.findAppointment (sys : HospitalSystem) (apptID : String) : Option Nat :=
  firstIndex (fun appt : Appointment => appt.apptID == apptID) sys.appointments

/-- Method `HospitalSystem::findDoctor`. -/
def HospitalSystem.findDoctor (sys : HospitalSystem) (doctorID : String) : Option Nat :=
  firstIndex (fun doctor : Doctor => doctor.userID == doctorID) sys.doctors

/-- Method `HospitalSystem::findPatient`. -/
def HospitalSystem.findPatient (sys : HospitalSystem) (patientID : String) : Option Nat :=
  firstIndex (fun patient : Patient => patient.userID == patientID) sys.patients

/-- The condition of the `if` in `isSlotAvailable`: the appointment occupies the
slot `(doctorID, dateTime)`. -/
def Appointment.occupies (appt : Appointment) (doctorID dateTime : String) : Bool :=
  appt.doctorID == doctorID && appt.dateTime == dateTime &&
    (appt.status == "scheduled" || appt.status == "completed")

/-- The loop of `isSlotAvailable` over the appointment vector. -/
def isSlotAvailableLoop (doctorID dateTime : String) : List Appointment → Bool
  | [] => true
  | appt :: rest =>
    if appt.occupies doctorID dateTime then false
    else isSlotAvailableLoop doctorID dateTime rest

/-- Method `HospitalSystem::isSlotAvailable`. -/
def HospitalSystem.isSlotAvailable (sys : HospitalSystem) (doctorID dateTime : String) : Bool :=
  isSlotAvailableLoop doctorID dateTime sys.appointments

/-! ## Authentication -/

/-- The `User *` returned by `authenticateUser`: the collection and the index of
the element pointed to. -/
inductive UserRef where
  | doctor (i : Nat)
  | patient (i : Nat)
  | admin (i : Nat)
deriving DecidableEq, Repr

/-- The condition of each `if` in `authenticateUser`. -/
def User.accepts (hasher : String → Nat) (userID password : String) (u : User) : Bool :=
  u.userID == userID && u.verifyPassword hasher password

/-- Method `HospitalSystem::authenticateUser`: the three loops in source order. -/
def HospitalSystem.authenticateUser (hasher : String → Nat) (sys : HospitalSystem)
    (userID password : String) : Option UserRef :=
  match firstIndex (fun d : Doctor => d.toUser.accepts hasher userID password) sys.doctors with
  | some i => some (.doctor i)
  | none =>
    match firstIndex (fun p : Patient => p.toUser.accepts hasher userID password) sys.patients with
    | some i => some (.patient i)
    | none =>
      match firstIndex (fun a : Admin => a.toUser.accepts hasher userID password) sys.admins with
      | some i => some (.admin i)
      | none => none

/-- The elements of one collection as users, each with the pointer to it,
positions counted from `k`. -/
def tagFrom {α : Type} (mk : Nat → UserRef) (toUser : α → User) :
    Nat → List α → List (UserRef × User)
  | _, [] => []
  | k, x :: rest => (mk k, toUser x) :: tagFrom mk toUser (k + 1) rest

/-- The concatenation doctors ++ patients ++ admins, each user with the pointer
to it. -/
def HospitalSystem.allUsers (sys : HospitalSystem) : List (UserRef × User) :=
  tagFrom .doctor Doctor.toUser 0 sys.doctors ++
    (tagFrom .patient Patient.toUser 0 sys.patients ++
      tagFrom .admin Admin.toUser 0 sys.admins)

/-- Authentication as the specification words it: the identity is the first
user of doctors ++ patients ++ admins whose `userID` is the supplied one, and
the call succeeds exactly when the supplied password hashes to that user's
stored digest. -/
def authenticateFirstID (hasher : String → Nat) (sys : HospitalSystem)
    (userID password : String) : Option UserRef :=
  match sys.allUsers.find? (fun ru => ru.2.userID == userID) with
  | none => none
  | some ru => if ru.2.verifyPassword hasher password then some ru.1 else none

/-- The three role collections. -/
inductive Role where
  | doctor
  | patient
  | admin
deriving DecidableEq, Repr

/-- One of the three loops of `authenticateUser`: the scan of one collection. -/
def scanRole (hasher : String → Nat) (sys : HospitalSystem) (userID password : String) :
    Role → Option UserRef
  | .doctor =>
    (firstIndex (fun d : Doctor => d.toUser.accepts hasher userID password) sys.doctors).map
      UserRef.doctor
  | .patient =>
    (firstIndex (fun p : Patient => p.toUser.accepts hasher userID password) sys.patients).map
      UserRef.patient
  | .admin =>
    (firstIndex (fun a : Admin => a.toUser.accepts hasher userID password) sys.admins).map
      UserRef.admin

/-- Authentication with the collections scanned in the given order: the result
of the first scan that finds a user. -/
def authenticateInOrder (hasher : String → Nat) (sys : HospitalSystem)
    (userID password : String) : List Role → Option UserRef
  | [] => none
  | r :: rest =>
    match scanRole hasher sys userID password r with
    | some ref => some ref
    | none => authenticateInOrder hasher sys userID password rest

/-! ## Appointment methods -/

/-- Method `Appointment::cancel`: `status = reason`. -/
def Appointment.cancel (appt : Appointment) (reason : String) : Appointment :=
  { appt with status := reason }

/-- What `Appointment::reschedule` prints. -/
inductive RescheduleOutcome where
  | rescheduled
  | slotUnavailable
deriving DecidableEq, Repr

/-- Method `Appointment::reschedule` on the appointment at index `self`, with
`newDateTime` the line read from `cin`. -/
def Appointment.reschedule (sys : HospitalSystem) (self : Nat) (newDateTime : String) :
    Option (HospitalSystem × RescheduleOutcome) :=
  match sys.appointments[self]? with
  | none => none
  | some appt =>
    if sys.isSlotAvailable appt.doctorID newDateTime then
      some ({ sys with
                appointments := sys.appointments.set self { appt with dateTime := newDateTime } },
            .rescheduled)
    else
      some (sys, .slotUnavailable)

/-! ## Doctor methods -/

/-- The condition of the `if` in the loop of `Doctor::markEmergency`. -/
def Appointment.cascades (appt : Appointment) (userID today : String) : Bool :=
  appt.doctorID == userID && appt.dateTime.take 10 == today &&
    appt.status == "scheduled" && !appt.isEmergency

/-- The loop of `Doctor::markEmergency`: the appointment vector after the loop
and the final `cancelledCount`. -/
def markEmergencyLoop (userID today : String) : List Appointment → List Appointment × Nat
  | [] => ([], 0)
  | appt :: rest =>
    let r := markEmergencyLoop userID today rest
    if appt.cascades userID today then
      (appt.cancel "emergency-cancelled" :: r.1, r.2 + 1)
    else
      (appt :: r.1, r.2)

/-- Method `Doctor::markEmergency` on the doctor at index `self`; `today` is the
`%Y-%m-%d` rendering of the clock. The second component is `cancelledCount`. -/
def Doctor.markEmergency (sys : HospitalSystem) (self : Nat) (today : String) :
    Option (HospitalSystem × Nat) :=
  match sys.doctors[self]? with
  | none => none
  | some d =>
    let r := markEmergencyLoop d.userID today sys.appointments
    some ({ sys with
              doctors := sys.doctors.set self { d with onEmergencyDuty := true }
              appointments := r.1 },
          r.2)

/-! ## Patient methods -/

/-- What `Patient::bookAppointment` prints. -/
inductive BookOutcome where
  | doctorNotFound
  | booked (apptID : String)
  | slotUnavailable
deriving DecidableEq, Repr

/-- Method `Patient::bookAppointment` on the patient at index `self`;
`doctorID` and `dateTime` are read from `cin`, `rnd` is the value of `rand()`. -/
def Patient.bookAppointment (sys : HospitalSystem) (self : Nat) (doctorID dateTime : String)
    (rnd : Nat) : Option (HospitalSystem × BookOutcome) :=
  match sys.patients[self]? with
  | none => none
  | some p =>
    match sys.findDoctor doctorID with
    | none => some (sys, .doctorNotFound)
    | some _ =>
      if sys.isSlotAvailable doctorID dateTime then
        let newAppt : Appointment :=
          { apptID := toString (rnd % 100000)
            doctorID := doctorID
            patientID := p.userID
            dateTime := dateTime
            status := "scheduled" }
        some ({ sys with
                  appointments := sys.appointments ++ [newAppt]
                  patients := sys.patients.set self
                    { p with appointmentIDs := p.appointmentIDs ++ [newAppt.apptID] } },
              .booked newAppt.apptID)
      else
        some (sys, .slotUnavailable)

/-- What `Patient::cancelAppointment` prints. -/
inductive CancelOutcome where
  | cancelled
  | notFoundOrNotCancellable
deriving DecidableEq, Repr

/-- Method `Patient::cancelAppointment` on the patient at index `self`; `aptID`
is read from `cin`. -/
def Patient.cancelAppointment (sys : HospitalSystem) (self : Nat) (aptID : String) :
    Option (HospitalSystem × CancelOutcome) :=
  match sys.patients[self]? with
  | none => none
  | some p =>
    match (sys.findAppointment aptID).bind (fun i => (sys.appointments[i]?).map (fun a => (i, a))) with
    | some (i, appt) =>
      if appt.patientID == p.userID && appt.status == "scheduled" then
        some ({ sys with appointments := sys.appointments.set i (appt.cancel "patient-cancelled") },
              .cancelled)
      else
        some (sys, .notFoundOrNotCancellable)
    | none => some (sys, .notFoundOrNotCancellable)

/-- What `Patient::requestEmergency` prints. -/
inductive EmergencyOutcome where
  | noDoctorAvailable
  | created (apptID : String)
deriving DecidableEq, Repr

/-- Method `Patient::requestEmergency` on the patient at index `self`; `now` is
the `%Y-%m-%d %H:%M` rendering of the clock, `rnd` the value of `rand()`. -/
def Patient.requestEmergency (sys : HospitalSystem) (self : Nat) (now : String) (rnd : Nat) :
    Option (HospitalSystem × EmergencyOutcome) :=
  match sys.patients[self]? with
  | none => none
  | some p =>
    match sys.doctors.filter (fun doctor => doctor.onEmergencyDuty) with
    | [] => some (sys, .noDoctorAvailable)
    | first :: _ =>
      let emergencyAppt : Appointment :=
        { apptID := "EMG-" ++ toString (rnd % 10000)
          doctorID := first.userID
          patientID := p.userID
          dateTime := now
          status := "scheduled"
          isEmergency := true }
      some ({ sys with
                appointments := sys.appointments ++ [emergencyAppt]
                patients := sys.patients.set self
                  { p with appointmentIDs := p.appointmentIDs ++ [emergencyAppt.apptID] } },
            .created emergencyAppt.apptID)

/-! ## Admin methods -/

/-- What `Admin::manageEmergencyOverrides` prints: the doctor was marked (with
the count `markEmergency` reported) or was not found. -/
inductive OverrideOutcome where
  | marked (cancelledCount : Nat)
  | doctorNotFound
deriving DecidableEq, Repr

/-- Method `Admin::manageEmergencyOverrides`; `doctorID` is read from `cin`. The
method never touches its receiver. -/
def Admin.manageEmergencyOverrides (sys : HospitalSystem) (doctorID today : String) :
    Option (HospitalSystem × OverrideOutcome) :=
  match sys.findDoctor doctorID with
  | some i => (Doctor.markEmergency sys i today).map (fun r => (r.1, .marked r.2))
  | none => some (sys, .doctorNotFound)

/-! ## Persistence

The three record files are the character sequences the program writes and
reads back; a file that does not exist is `none`. An input stream is the list
of its unread characters. -/

/-- The field delimiter of the record files. -/
def pipe : Char := '|'

/-- The line terminator: what `endl` writes and the default delimiter of
`getline`. -/
def newline : Char := Char.ofNat 10

/-- The string `"|"` written between two fields. -/
def sep : String := String.mk [pipe]

/-- The string written by `endl`. -/
def endl : String := String.mk [newline]

/-- What `getline` does with a stream that has characters left: the characters
before the first delimiter are extracted, the delimiter is consumed and the
rest stays unread; without a delimiter everything is extracted. -/
def splitAtDelim (delim : Char) : List Char → List Char × List Char
  | [] => ([], [])
  | c :: cs =>
    if c = delim then ([], cs)
    else (c :: (splitAtDelim delim cs).1, (splitAtDelim delim cs).2)

/-- Call `getline(stream, out, delim)` on the unread characters: it fails when
nothing is left to read; otherwise it succeeds with the extracted string and
the characters still unread. -/
def getline (delim : Char) (unread : List Char) : Option (String × List Char) :=
  match unread with
  | [] => none
  | c :: cs =>
    some (String.mk (splitAtDelim delim (c :: cs)).1, (splitAtDelim delim (c :: cs)).2)

/-- The loop `while (getline(file, line))`: the lines read until `getline`
fails. Every successful call consumes a character, so a fuel equal to the
number of unread characters is never used up before the stream is. -/
def whileGetline : Nat → List Char → List String
  | 0, _ => []
  | fuel + 1, unread =>
    match getline newline unread with
    | none => []
    | some (line, rest) => line :: whileGetline fuel rest

/-- The lines of a file. -/
def readLines (content : String) : List String :=
  whileGetline content.data.length content.data

/-- The condition `getline(iss, a, '|') && getline(iss, b, '|') &&
getline(iss, c, '|') && getline(iss, d)` on a doctor or patient line, with the
four strings it fills. -/
def parseFour (line : String) : Option (String × String × String × String) :=
  (getline pipe line.data).bind fun r₁ =>
  (getline pipe r₁.2).bind fun r₂ =>
  (getline pipe r₂.2).bind fun r₃ =>
  (getline newline r₃.2).bind fun r₄ =>
  some (r₁.1, r₂.1, r₃.1, r₄.1)

/-- The condition of the `if` on an appointment line, with the appointment it
fills: five fields up to `'|'`, then the emergency flag. -/
def parseAppointment (line : String) : Option Appointment :=
  (getline pipe line.data).bind fun r₁ =>
  (getline pipe r₁.2).bind fun r₂ =>
  (getline pipe r₂.2).bind fun r₃ =>
  (getline pipe r₃.2).bind fun r₄ =>
  (getline pipe r₄.2).bind fun r₅ =>
  (getline newline r₅.2).bind fun r₆ =>
  some { apptID := r₁.1, doctorID := r₂.1, patientID := r₃.1, dateTime := r₄.1,
         status := r₅.1, isEmergency := r₆.1 == "1" }

/-- The three record files `doctors.txt`, `patients.txt`, `appointments.txt`. -/
structure Files where
  doctorsTxt : Option String
  patientsTxt : Option String
  appointmentsTxt : Option String
deriving DecidableEq, Repr

/-- What `saveToFile` writes for a doctor before `endl`. -/
def doctorRecord (doc : Doctor) : String :=
  doc.userID ++ sep ++ doc.name ++ sep ++ doc.specialization ++ sep ++ doc.password

/-- What `saveToFile` writes for a patient before `endl`. -/
def patientRecord (pat : Patient) : String :=
  pat.userID ++ sep ++ pat.name ++ sep ++ pat.medicalHistory ++ sep ++ pat.password

/-- What `saveToFile` writes for an appointment before `endl`. -/
def appointmentRecord (appt : Appointment) : String :=
  appt.apptID ++ sep ++ appt.doctorID ++ sep ++ appt.patientID ++ sep ++ appt.dateTime ++ sep ++
    appt.status ++ sep ++ (if appt.isEmergency then "1" else "0")

/-- The content of a file written record by record, each followed by `endl`. -/
def writeRecords : List String → String
  | [] => ""
  | record :: rest => record ++ endl ++ writeRecords rest

/-- Method `HospitalSystem::saveToFile`: the three files it leaves. -/
def HospitalSystem.saveToFile (sys : HospitalSystem) : Files :=
  { doctorsTxt := some (writeRecords (sys.doctors.map doctorRecord))
    patientsTxt := some (writeRecords (sys.patients.map patientRecord))
    appointmentsTxt := some (writeRecords (sys.appointments.map appointmentRecord)) }

/-- The records a loading loop pushes: one per line that parses; none when the
file could not be opened. -/
def loadRecords {α : Type} (parse : String → Option α) : Option String → List α
  | none => []
  | some content => (readLines content).filterMap parse

/-- Method `HospitalSystem::loadFromFile`: doctors and patients are built with
their constructors from the four strings of a line, appointments field by
field, and the built-in administrator is pushed. -/
def HospitalSystem.loadFromFile (hasher : String → Nat) (files : Files) (sys : HospitalSystem) :
    HospitalSystem :=
  { doctors := sys.doctors ++
      loadRecords (fun line => (parseFour line).map
        (fun f => Doctor.new hasher f.1 f.2.1 f.2.2.2 f.2.2.1)) files.doctorsTxt
    patients := sys.patients ++
      loadRecords (fun line => (parseFour line).map
        (fun f => Patient.new hasher f.1 f.2.1 f.2.2.2 f.2.2.1)) files.patientsTxt
    appointments := sys.appointments ++ loadRecords parseAppointment files.appointmentsTxt
    admins := sys.admins ++ [Admin.new hasher "admin1" "System Administrator" "admin123"] }

/-- The system before `loadFromFile` at start-up: four empty vectors. -/
def emptySystem : HospitalSystem :=
  { doctors := [], patients := [], appointments := [], admins := [] }

/-- A field that can stand before a `'|'` in a record: it holds neither `'|'`
nor a line break. -/
def plainField (s : String) : Bool :=
  s.data.all (fun c => c != pipe && c != newline)

/-- A field that can stand last in a record: it is not empty and holds no line
break. -/
def lastField (s : String) : Bool :=
  !s.data.isEmpty && s.data.all (fun c => c != newline)

/-- A state whose records can be told apart in the files: the fields written
before a `'|'` are plain, and the stored digest, written last, is a last
field. -/
def snapshotSafe (sys : HospitalSystem) : Bool :=
  sys.doctors.all (fun d =>
      plainField d.userID && plainField d.name && plainField d.specialization &&
        lastField d.password) &&
    sys.patients.all (fun p =>
      plainField p.userID && plainField p.name && plainField p.medicalHistory &&
        lastField p.password) &&
    sys.appointments.all (fun a =>
      plainField a.apptID && plainField a.doctorID && plainField a.patientID &&
        plainField a.dateTime && plainField a.status)

/-! ## The state-changing operations of a session -/

/-- The methods that change the appointment collection, each with the input it
reads: the five entries of the doctor, patient and administrator menus that do
so, and `Appointment::reschedule`. -/
inductive Operation where
  | bookAppointment (self : Nat) (doctorID dateTime : String) (rnd : Nat)
  | cancelAppointment (self : Nat) (aptID : String)
  | requestEmergency (self : Nat) (now : String) (rnd : Nat)
  | markEmergency (self : Nat) (today : String)
  | manageEmergencyOverrides (doctorID today : String)
  | reschedule (self : Nat) (newDateTime : String)
deriving DecidableEq, Repr

/-- The state after an operation (`none` when its receiver does not exist). -/
def Operation.run (sys : HospitalSystem) : Operation → Option HospitalSystem
  | .bookAppointment self doctorID dateTime rnd =>
    (Patient.bookAppointment sys self doctorID dateTime rnd).map (fun r => r.1)
  | .cancelAppointment self aptID =>
    (Patient.cancelAppointment sys self aptID).map (fun r => r.1)
  | .requestEmergency self now rnd =>
    (Patient.requestEmergency sys self now rnd).map (fun r => r.1)
  | .markEmergency self today =>
    (Doctor.markEmergency sys self today).map (fun r => r.1)
  | .manageEmergencyOverrides doctorID today =>
    (Admin.manageEmergencyOverrides sys doctorID today).map (fun r => r.1)
  | .reschedule self newDateTime =>
    (Appointment.reschedule sys self newDateTime).map (fun r => r.1)

/-! ## The invariants of the data model -/

/-- An appointment that holds its slot: status `scheduled` or `completed`. -/
def Appointment.isActive (appt : Appointment) : Bool :=
  appt.status == "scheduled" || appt.status == "completed"

/-- Two appointments that both hold the same `(doctorID, dateTime)` slot. -/
def Appointment.conflicts (a b : Appointment) : Bool :=
  a.isActive && b.isActive && a.doctorID == b.doctorID && a.dateTime == b.dateTime

/-- The slot-conflict invariant on an appointment collection: no two positions
of the collection hold appointments that are both `scheduled` or `completed`
for the same `(doctorID, dateTime)`. -/
def SlotConflictFree (appointments : List Appointment) : Prop :=
  appointments.Pairwise (fun a b => a.conflicts b = false)

instance (appointments : List Appointment) : Decidable (SlotConflictFree appointments) := by
  unfold SlotConflictFree; infer_instance

/-- The `apptID` uniqueness invariant: the appointments of the collection have
pairwise distinct `apptID`. -/
def UniqueApptIDs (appointments : List Appointment) : Prop :=
  (appointments.map (fun a => a.apptID)).Nodup

instance (appointments : List Appointment) : Decidable (UniqueApptIDs appointments) := by
  unfold UniqueApptIDs; infer_instance

/-- For `requestEmergency`: the slot of the appointment it is about to create
(first doctor on emergency duty, current time) is free, or no doctor is on
duty. True for every other operation. -/
def Operation.emergencySlotFree (sys : HospitalSystem) : Operation → Bool
  | .requestEmergency _ now _ =>
    match sys.doctors.filter (fun doctor => doctor.onEmergencyDuty) with
    | [] => true
    | first :: _ => sys.isSlotAvailable first.userID now
  | _ => true

/-! ## Sample states -/

/-- A small directory: two doctors, two patients, the built-in administrator,
no appointment. -/
def sampleSystem : HospitalSystem :=
  { doctors :=
      [ { userID := "D1", name := "Asha Rao", password := "1111", role := "doctor",
          specialization := "Cardiology" },
        { userID := "D2", name := "Binod Karki", password := "2222", role := "doctor",
          specialization := "Neurology" } ]
    patients :=
      [ { userID := "P1", name := "Chandra Thapa", password := "3333", role := "patient",
          medicalHistory := "none" },
        { userID := "P2", name := "Dipa Shah", password := "4444", role := "patient",
          medicalHistory := "asthma" } ]
    appointments := []
    admins :=
      [ { userID := "admin1", name := "System Administrator", password := "5555",
          role := "admin" } ] }

/-- The appointment `P1` books with `D1` for 5 April 2025, 10:00, when `rand()`
gives 42. -/
def sampleAppointment : Appointment :=
  { apptID := "42", doctorID := "D1", patientID := "P1", dateTime := "2025-04-05 10:00",
    status := "scheduled" }

/-- The state `sampleSystem` after that booking. -/
def sampleBooked : HospitalSystem :=
  { sampleSystem with
    appointments := [sampleAppointment]
    patients :=
      [ { userID := "P1", name := "Chandra Thapa", password := "3333", role := "patient",
          medicalHistory := "none", appointmentIDs := ["42"] },
        { userID := "P2", name := "Dipa Shah", password := "4444", role := "patient",
          medicalHistory := "asthma" } ] }

/-- The emergency appointment `P2` obtains with `D1` in the very minute of
`sampleAppointment`, when `rand()` gives 7. -/
def sampleEmergency : Appointment :=
  { apptID := "EMG-7", doctorID := "D1", patientID := "P2", dateTime := "2025-04-05 10:00",
    status := "scheduled", isEmergency := true }

/-- The directory with `D1` on emergency duty, `P1` holding `sampleAppointment`
and `P2` holding `sampleEmergency`: both appointments are `scheduled` for
`D1` at the same `dateTime`. -/
def sampleDoubleBooked : HospitalSystem :=
  { doctors :=
      [ { userID := "D1", name := "Asha Rao", password := "1111", role := "doctor",
          specialization := "Cardiology", onEmergencyDuty := true },
        { userID := "D2", name := "Binod Karki", password := "2222", role := "doctor",
          specialization := "Neurology" } ]
    patients :=
      [ { userID := "P1", name := "Chandra Thapa", password := "3333", role := "patient",
          medicalHistory := "none", appointmentIDs := ["42"] },
        { userID := "P2", name := "Dipa Shah", password := "4444", role := "patient",
          medicalHistory := "asthma", appointmentIDs := ["EMG-7"] } ]
    appointments := [sampleAppointment, sampleEmergency]
    admins :=
      [ { userID := "admin1", name := "System Administrator", password := "5555",
          role := "admin" } ] }

/-- Doctor `D1` of `sampleDoubleBooked`. -/
def sampleDoctorOnDuty : Doctor :=
  { userID := "D1", name := "Asha Rao", password := "1111", role := "doctor",
    specialization := "Cardiology", onEmergencyDuty := true }

/-- Patient `P2` of `sampleSystem`. -/
def samplePatientTwo : Patient :=
  { userID := "P2", name := "Dipa Shah", password := "4444", role := "patient",
    medicalHistory := "asthma" }

/-- The state `sampleBooked` with `D1` on emergency duty. -/
def sampleOnDuty : HospitalSystem :=
  { sampleBooked with
    doctors :=
      [ sampleDoctorOnDuty,
        { userID := "D2", name := "Binod Karki", password := "2222", role := "doctor",
          specialization := "Neurology" } ] }

/-- The state `sampleOnDuty` after `P2` has requested an emergency at 11:00, an
hour after `sampleAppointment`, with `rand()` giving 7. -/
def sampleEmergencyLater : HospitalSystem :=
  { sampleDoubleBooked with
    appointments :=
      [sampleAppointment, { sampleEmergency with dateTime := "2025-04-05 11:00" }] }

/-- A hash function to run the password code on: a polynomial hash modulo
`2 ^ 64`, standing for `std::hash<string>`. -/
def sampleHasher (s : String) : Nat :=
  s.data.foldl (fun h c => (h * 31 + c.toNat) % 18446744073709551616) 7

/-- A directory in which the ID `X1` is both a doctor's (password `doc`) and a
patient's (password `patient1`). -/
def sampleCollision : HospitalSystem :=
  { doctors := [Doctor.new sampleHasher "X1" "Asha Rao" "doc" "Cardiology"]
    patients := [Patient.new sampleHasher "X1" "Chandra Thapa" "patient1" "none"]
    appointments := []
    admins := [Admin.new sampleHasher "admin1" "System Administrator" "admin123"] }

/-- A directory with distinct IDs whose passwords are stored hashed. -/
def sampleHashed : HospitalSystem :=
  { doctors := [Doctor.new sampleHasher "D1" "Asha Rao" "doc" "Cardiology"]
    patients := [Patient.new sampleHasher "P1" "Chandra Thapa" "patient1" "none"]
    appointments := []
    admins := [Admin.new sampleHasher "admin1" "System Administrator" "admin123"] }

/-- The state `sampleHashed` with the appointment of `sampleBooked` and the
emergency appointment. -/
def sampleSnapshot : HospitalSystem :=
  { sampleHashed with appointments := [sampleAppointment, sampleEmergency] }

/-- A directory whose one doctor has a `'|'` in the name. -/
def samplePiped : HospitalSystem :=
  { doctors := [Doctor.new sampleHasher "D1" "Rao|Asha" "doc" "Cardiology"]
    patients := []
    appointments := []
    admins := [] }

/-! ## Lemmas on the loops -/

theorem firstIndex_some {α : Type} (p : α → Bool) :
    ∀ (l : List α) (i : Nat), firstIndex p l = some i →
      ∃ x, l[i]? = some x ∧ p x = true ∧ ∀ j y, j < i → l[j]? = some y → p y = false := by
  intro l
  induction l with
  | nil => intro i h; simp [firstIndex] at h
  | cons a rest ih =>
    intro i h
    unfold firstIndex at h
    by_cases hp : p a = true
    · simp only [hp, if_true, Option.some.injEq] at h
      subst h
      exact ⟨a, by simp, hp, by intro j y hj; omega⟩
    · simp only [hp] at h
      cases hr : firstIndex p rest with
      | none => simp [hr] at h
      | some k =>
        simp only [hr, Option.map_some', Bool.false_eq_true, if_false, Option.some.injEq] at h
        subst h
        obtain ⟨x, hx, hpx, hmin⟩ := ih k hr
        refine ⟨x, by simpa using hx, hpx, ?_⟩
        intro j y hj hy
        cases j with
        | zero =>
          simp only [List.getElem?_cons_zero, Option.some.injEq] at hy
          subst hy
          simpa using hp
        | succ j =>
          simp only [List.getElem?_cons_succ] at hy
          exact hmin j y (by omega) hy

theorem firstIndex_none {α : Type} (p : α → Bool) :
    ∀ (l : List α), firstIndex p l = none ↔ ∀ x ∈ l, p x = false := by
  intro l
  induction l with
  | nil => simp [firstIndex]
  | cons a rest ih =>
    unfold firstIndex
    by_cases hp : p a = true
    · simp [hp]
    · simp only [hp, Bool.false_eq_true, if_false, Option.map_eq_none', ih, List.mem_cons,
        forall_eq_or_imp]
      simp [hp]

theorem isSlotAvailableLoop_eq_true (doctorID dateTime : String) :
    ∀ l : List Appointment, isSlotAvailableLoop doctorID dateTime l = true ↔
      ∀ a ∈ l, a.occupies doctorID dateTime = false := by
  intro l
  induction l with
  | nil => simp [isSlotAvailableLoop]
  | cons a rest ih =>
    unfold isSlotAvailableLoop
    by_cases h : a.occupies doctorID dateTime = true
    · simp [h]
    · simp only [h, Bool.false_eq_true, if_false, ih, List.mem_cons, forall_eq_or_imp]
      simp [h]

theorem occupies_eq_true (a : Appointment) (doctorID dateTime : String) :
    a.occupies doctorID dateTime = true ↔
      a.doctorID = doctorID ∧ a.dateTime = dateTime ∧
        (a.status = "scheduled" ∨ a.status = "completed") := by
  simp [Appointment.occupies, and_assoc]

/-! ## Slot availability -/

/-- C1: `isSlotAvailable(doctorID, dateTime)` is true exactly when the collection holds
no appointment of that doctor, at exactly that `dateTime`, whose status is
`scheduled` or `completed`. -/
theorem isSlotAvailable_iff (sys : HospitalSystem) (doctorID dateTime : String) :
    sys.isSlotAvailable doctorID dateTime = true ↔
      ¬ ∃ a ∈ sys.appointments, a.doctorID = doctorID ∧ a.dateTime = dateTime ∧
          (a.status = "scheduled" ∨ a.status = "completed") := by
  unfold HospitalSystem.isSlotAvailable
  rw [isSlotAvailableLoop_eq_true]
  constructor
  · rintro h ⟨a, ha, hocc⟩
    have := h a ha
    rw [← Bool.not_eq_true, occupies_eq_true] at this
    exact this hocc
  · intro h a ha
    rw [← Bool.not_eq_true, occupies_eq_true]
    intro hocc
    exact h ⟨a, ha, hocc⟩

theorem isSlotAvailable_eq_false (sys : HospitalSystem) (doctorID dateTime : String) :
    sys.isSlotAvailable doctorID dateTime = false ↔
      ∃ a ∈ sys.appointments, a.occupies doctorID dateTime = true := by
  unfold HospitalSystem.isSlotAvailable
  rw [← Bool.not_eq_true, isSlotAvailableLoop_eq_true]
  simp

/-- The shape of a successful `bookAppointment`: the receiver exists, the
doctor was found, the slot was free, and the new state is the old one with the
new appointment pushed and its ID pushed on the receiver. -/
theorem bookAppointment_booked {sys sys' : HospitalSystem} {self : Nat}
    {doctorID dateTime : String} {rnd : Nat} {apptID : String}
    (h : Patient.bookAppointment sys self doctorID dateTime rnd = some (sys', .booked apptID)) :
    ∃ p, sys.patients[self]? = some p ∧ (sys.findDoctor doctorID).isSome = true ∧
      sys.isSlotAvailable doctorID dateTime = true ∧
      apptID = toString (rnd % 100000) ∧
      sys' = { sys with
        appointments := sys.appointments ++
          [{ apptID := apptID, doctorID := doctorID, patientID := p.userID,
             dateTime := dateTime, status := "scheduled", isEmergency := false }]
        patients := sys.patients.set self
          { p with appointmentIDs := p.appointmentIDs ++ [apptID] } } := by
  unfold Patient.bookAppointment at h
  cases hp : sys.patients[self]? with
  | none => simp [hp] at h
  | some p =>
    cases hd : sys.findDoctor doctorID with
    | none => simp [hp, hd] at h
    | some i =>
      by_cases hs : sys.isSlotAvailable doctorID dateTime = true
      · simp only [hp, hd, hs, if_true, Option.some.injEq, Prod.mk.injEq,
          BookOutcome.booked.injEq] at h
        obtain ⟨h1, h2⟩ := h
        subst h2
        exact ⟨p, rfl, rfl, hs, rfl, h1.symm⟩
      · simp [hp, hd, hs] at h

/-! ## Booking twice -/

/-- C2: after a successful `bookAppointment` for `(doctorID, dateTime)` the slot is
no longer available, and a following `bookAppointment` by any patient for the
same doctor and time prints the slot-unavailable message and leaves the whole
state (the appointment collection and that patient's `appointmentIDs`
included) as it was. -/
theorem book_twice_rejected (sys sys' : HospitalSystem) (self : Nat)
    (doctorID dateTime : String) (rnd : Nat) (apptID : String)
    (h : Patient.bookAppointment sys self doctorID dateTime rnd = some (sys', .booked apptID)) :
    sys'.isSlotAvailable doctorID dateTime = false ∧
      ∀ (self2 rnd2 : Nat), self2 < sys'.patients.length →
        Patient.bookAppointment sys' self2 doctorID dateTime rnd2
          = some (sys', .slotUnavailable) := by
  obtain ⟨p, _, hd, _, _, hsys⟩ := bookAppointment_booked h
  have hfalse : sys'.isSlotAvailable doctorID dateTime = false := by
    rw [isSlotAvailable_eq_false]
    refine ⟨{ apptID := apptID, doctorID := doctorID, patientID := p.userID,
              dateTime := dateTime, status := "scheduled", isEmergency := false }, ?_, ?_⟩
    · rw [hsys]; simp
    · simp [Appointment.occupies]
  refine ⟨hfalse, ?_⟩
  intro self2 rnd2 hlt
  have hd' : (sys'.findDoctor doctorID).isSome = true := by
    rw [hsys]; exact hd
  obtain ⟨i, hi⟩ := Option.isSome_iff_exists.mp hd'
  obtain ⟨p2, hp2⟩ : ∃ p2, sys'.patients[self2]? = some p2 :=
    ⟨sys'.patients[self2], List.getElem?_eq_getElem hlt⟩
  unfold Patient.bookAppointment
  simp [hp2, hi, hfalse]

theorem book_twice_rejected_witness :
    Patient.bookAppointment sampleSystem 0 "D1" "2025-04-05 10:00" 42
        = some (sampleBooked, .booked "42") ∧
      sampleBooked.isSlotAvailable "D1" "2025-04-05 10:00" = false ∧
      ∀ (self2 rnd2 : Nat), self2 < sampleBooked.patients.length →
        Patient.bookAppointment sampleBooked self2 "D1" "2025-04-05 10:00" rnd2
          = some (sampleBooked, .slotUnavailable) :=
  ⟨by decide,
   book_twice_rejected sampleSystem sampleBooked 0 "D1" "2025-04-05 10:00" 42 "42" (by decide)⟩

/-! ## Cancelling -/

theorem getElem?_split {α : Type} :
    ∀ (l : List α) (i : Nat) (a : α), l[i]? = some a →
      ∃ pre post, l = pre ++ a :: post ∧ pre.length = i ∧
        ∀ b, l.set i b = pre ++ b :: post := by
  intro l
  induction l with
  | nil => intro i a h; simp at h
  | cons x rest ih =>
    intro i a h
    cases i with
    | zero =>
      simp only [List.getElem?_cons_zero, Option.some.injEq] at h
      subst h
      exact ⟨[], rest, rfl, rfl, fun b => rfl⟩
    | succ k =>
      simp only [List.getElem?_cons_succ] at h
      obtain ⟨pre, post, h1, h2, h3⟩ := ih k a h
      refine ⟨x :: pre, post, by rw [h1]; rfl, by simp [h2], ?_⟩
      intro b
      simp [List.set, h3 b]

/-- The shape of a successful `cancelAppointment`: `findAppointment` gave the
position of an appointment of the receiver whose status was `scheduled`, and
the new state is the old one with that appointment cancelled in place. -/
theorem cancelAppointment_cancelled {sys sys' : HospitalSystem} {self : Nat} {aptID : String}
    (h : Patient.cancelAppointment sys self aptID = some (sys', .cancelled)) :
    ∃ p i appt, sys.patients[self]? = some p ∧ sys.findAppointment aptID = some i ∧
      sys.appointments[i]? = some appt ∧ appt.patientID = p.userID ∧
      appt.status = "scheduled" ∧
      sys' = { sys with
        appointments := sys.appointments.set i (appt.cancel "patient-cancelled") } := by
  unfold Patient.cancelAppointment at h
  cases hp : sys.patients[self]? with
  | none => simp [hp] at h
  | some p =>
    cases hf : sys.findAppointment aptID with
    | none => simp [hp, hf] at h
    | some i =>
      cases ha : sys.appointments[i]? with
      | none => simp [hp, hf, ha] at h
      | some appt =>
        by_cases hc : (appt.patientID == p.userID && appt.status == "scheduled") = true
        · simp only [hp, hf, ha, Option.some_bind, Option.map_some', hc, if_true,
            Option.some.injEq, Prod.mk.injEq, and_true] at h
          simp only [Bool.and_eq_true, beq_iff_eq] at hc
          exact ⟨p, i, appt, rfl, rfl, ha, hc.1, hc.2, h.symm⟩
        · simp [hp, hf, ha, hc] at h

theorem conflicts_of_occupies {a b : Appointment} {doctorID dateTime : String}
    (ha : a.occupies doctorID dateTime = true) (hb : b.occupies doctorID dateTime = true) :
    a.conflicts b = true := by
  rw [occupies_eq_true] at ha hb
  obtain ⟨ha1, ha2, ha3⟩ := ha
  obtain ⟨hb1, hb2, hb3⟩ := hb
  simp only [Appointment.conflicts, Appointment.isActive, Bool.and_eq_true, Bool.or_eq_true,
    beq_iff_eq]
  exact ⟨⟨⟨ha3, hb3⟩, ha1.trans hb1.symm⟩, ha2.trans hb2.symm⟩

theorem conflicts_comm (a b : Appointment) : a.conflicts b = b.conflicts a := by
  simp only [Appointment.conflicts]
  rw [Bool.and_comm a.isActive b.isActive]
  congr 1
  · congr 1
    exact Bool.beq_comm
  · exact Bool.beq_comm

/-- C3, as the code has it: in a state that satisfies the slot-conflict invariant,
after `cancelAppointment` has cancelled the appointment `appt` (its status is
now `patient-cancelled`), `isSlotAvailable` is true for the doctor and time of
`appt`. -/
theorem cancel_frees_slot (sys sys' : HospitalSystem) (self : Nat) (aptID : String)
    (i : Nat) (appt : Appointment)
    (hinv : SlotConflictFree sys.appointments)
    (h : Patient.cancelAppointment sys self aptID = some (sys', .cancelled))
    (hi : sys.findAppointment aptID = some i) (happt : sys.appointments[i]? = some appt) :
    sys'.appointments[i]? = some (appt.cancel "patient-cancelled") ∧
      sys'.isSlotAvailable appt.doctorID appt.dateTime = true := by
  obtain ⟨p, i', appt', _, hi', happt', _, hst, hsys⟩ := cancelAppointment_cancelled h
  rw [hi] at hi'
  injection hi' with hi'
  subst hi'
  rw [happt] at happt'
  injection happt' with happt'
  subst happt'
  obtain ⟨pre, post, hl, hlen, hset⟩ := getElem?_split _ _ _ happt
  have hocc : appt.occupies appt.doctorID appt.dateTime = true := by
    simp [Appointment.occupies, hst]
  have happs : sys'.appointments = pre ++ appt.cancel "patient-cancelled" :: post := by
    rw [hsys]; exact hset _
  refine ⟨?_, ?_⟩
  · rw [hsys]
    have hlt : i < sys.appointments.length := by
      rcases Nat.lt_or_ge i sys.appointments.length with hlt | hge
      · exact hlt
      · rw [List.getElem?_eq_none hge] at happt
        exact Option.noConfusion happt
    simp [List.getElem?_set, hlt]
  · unfold HospitalSystem.isSlotAvailable
    rw [isSlotAvailableLoop_eq_true, happs]
    unfold SlotConflictFree at hinv
    rw [hl, List.pairwise_append, List.pairwise_cons] at hinv
    obtain ⟨_, ⟨hpost, _⟩, hpre⟩ := hinv
    intro b hb
    rw [List.mem_append, List.mem_cons] at hb
    rw [← Bool.not_eq_true]
    intro hbo
    rcases hb with hb | hb | hb
    · have := hpre b hb appt (List.mem_cons_self _ _)
      rw [conflicts_of_occupies hbo hocc] at this
      exact Bool.noConfusion this
    · subst hb
      simp [Appointment.occupies, Appointment.cancel] at hbo
    · have := hpost b hb
      rw [conflicts_of_occupies hocc hbo] at this
      exact Bool.noConfusion this

theorem cancel_frees_slot_witness :
    SlotConflictFree sampleBooked.appointments ∧
      Patient.cancelAppointment sampleBooked 0 "42"
        = some ({ sampleBooked with
                  appointments := [sampleAppointment.cancel "patient-cancelled"] },
                .cancelled) ∧
      sampleBooked.findAppointment "42" = some 0 ∧
      sampleBooked.appointments[0]? = some sampleAppointment ∧
      ({ sampleBooked with
          appointments := [sampleAppointment.cancel "patient-cancelled"] }
        : HospitalSystem).isSlotAvailable "D1" "2025-04-05 10:00" = true :=
  ⟨by decide, by decide, by decide, by decide,
   (cancel_frees_slot sampleBooked _ 0 "42" 0 sampleAppointment (by decide) (by decide)
      (by decide) (by decide)).2⟩

/-- C3 fails as stated: in `sampleDoubleBooked` patient `P1` cancels appointment
`42` (doctor `D1`, 5 April 2025 10:00) successfully, and `isSlotAvailable` for
that doctor and time is still false, because `EMG-7` is scheduled on the same
slot. -/
theorem cancel_frees_slot_counterexample :
    sampleDoubleBooked.findAppointment "42" = some 0 ∧
      sampleDoubleBooked.appointments[0]? = some sampleAppointment ∧
      Patient.cancelAppointment sampleDoubleBooked 0 "42"
        = some ({ sampleDoubleBooked with
                  appointments :=
                    [sampleAppointment.cancel "patient-cancelled", sampleEmergency] },
                .cancelled) ∧
      ({ sampleDoubleBooked with
          appointments := [sampleAppointment.cancel "patient-cancelled", sampleEmergency] }
        : HospitalSystem).isSlotAvailable sampleAppointment.doctorID sampleAppointment.dateTime
        = false := by
  decide

/-! ## The emergency cascade -/

theorem cascades_eq_true (a : Appointment) (userID today : String) :
    a.cascades userID today = true ↔
      a.doctorID = userID ∧ a.dateTime.take 10 = today ∧ a.status = "scheduled" ∧
        a.isEmergency = false := by
  simp [Appointment.cascades, and_assoc]

theorem markEmergencyLoop_fst (userID today : String) :
    ∀ l : List Appointment, (markEmergencyLoop userID today l).1 =
      l.map (fun a => if a.cascades userID today then a.cancel "emergency-cancelled" else a) := by
  intro l
  induction l with
  | nil => rfl
  | cons a rest ih =>
    unfold markEmergencyLoop
    by_cases h : a.cascades userID today = true
    · simp [h, ih]
    · simp [h, ih]

theorem markEmergencyLoop_snd (userID today : String) :
    ∀ l : List Appointment, (markEmergencyLoop userID today l).2 =
      l.countP (fun a => a.cascades userID today) := by
  intro l
  induction l with
  | nil => rfl
  | cons a rest ih =>
    unfold markEmergencyLoop
    by_cases h : a.cascades userID today = true
    · simp [h, ih, List.countP_cons]
    · simp [h, ih, List.countP_cons]

theorem markEmergencyLoop_changed (userID today : String) :
    ∀ l : List Appointment, (markEmergencyLoop userID today l).2 =
      (List.zip l (markEmergencyLoop userID today l).1).countP
        (fun ab => ab.1.status != ab.2.status) := by
  intro l
  induction l with
  | nil => rfl
  | cons a rest ih =>
    unfold markEmergencyLoop
    by_cases h : a.cascades userID today = true
    · have hst : a.status = "scheduled" := ((cascades_eq_true a userID today).mp h).2.2.1
      simp only [h, if_true, List.zip_cons_cons, List.countP_cons, Appointment.cancel]
      rw [← ih, hst]
      simp
    · simp only [h, Bool.false_eq_true, if_false, List.zip_cons_cons, List.countP_cons]
      rw [← ih]
      simp

/-- C4: `markEmergency` on the doctor `d` at position `self` returns, sets
`onEmergencyDuty` of that doctor and changes nothing else outside the
appointment collection; the collection keeps its length; an appointment of
`d.userID` whose `dateTime` starts with `today`, whose status is `scheduled`
and which is no emergency gets status `emergency-cancelled` and keeps its
other fields; every other appointment is left identical; and the reported
count is the number of appointments that matched, which is the number of
positions whose status differs before and after. -/
theorem markEmergency_cascade (sys : HospitalSystem) (self : Nat) (d : Doctor) (today : String)
    (hd : sys.doctors[self]? = some d) :
    ∃ (sys' : HospitalSystem) (cancelledCount : Nat),
      Doctor.markEmergency sys self today = some (sys', cancelledCount) ∧
      sys'.doctors = sys.doctors.set self { d with onEmergencyDuty := true } ∧
      sys'.doctors[self]? = some { d with onEmergencyDuty := true } ∧
      sys'.patients = sys.patients ∧ sys'.admins = sys.admins ∧
      sys'.appointments.length = sys.appointments.length ∧
      (∀ (i : Nat) (a : Appointment), sys.appointments[i]? = some a →
        ((a.doctorID = d.userID ∧ a.dateTime.take 10 = today ∧ a.status = "scheduled" ∧
            a.isEmergency = false) →
          sys'.appointments[i]? = some { a with status := "emergency-cancelled" }) ∧
        (¬ (a.doctorID = d.userID ∧ a.dateTime.take 10 = today ∧ a.status = "scheduled" ∧
            a.isEmergency = false) →
          sys'.appointments[i]? = some a)) ∧
      cancelledCount = sys.appointments.countP (fun a => a.cascades d.userID today) ∧
      cancelledCount = (List.zip sys.appointments sys'.appointments).countP
        (fun ab => ab.1.status != ab.2.status) := by
  have hlt : self < sys.doctors.length := by
    rcases Nat.lt_or_ge self sys.doctors.length with hlt | hge
    · exact hlt
    · rw [List.getElem?_eq_none hge] at hd
      exact Option.noConfusion hd
  refine ⟨{ sys with
              doctors := sys.doctors.set self { d with onEmergencyDuty := true }
              appointments := (markEmergencyLoop d.userID today sys.appointments).1 },
    (markEmergencyLoop d.userID today sys.appointments).2,
    by simp only [Doctor.markEmergency, hd], rfl, ?_, rfl, rfl, ?_, ?_, ?_, ?_⟩
  · simp [List.getElem?_set, hlt]
  · simp [markEmergencyLoop_fst]
  · intro i a ha
    simp only [markEmergencyLoop_fst, List.getElem?_map, ha, Option.map_some']
    rw [← cascades_eq_true]
    constructor
    · intro hc
      simp [hc, Appointment.cancel]
    · intro hc
      simp [hc]
  · exact markEmergencyLoop_snd _ _ _
  · exact markEmergencyLoop_changed _ _ _

theorem markEmergency_cascade_witness :
    sampleDoubleBooked.doctors[0]? = some sampleDoctorOnDuty ∧
      ∃ (sys' : HospitalSystem) (cancelledCount : Nat),
        Doctor.markEmergency sampleDoubleBooked 0 "2025-04-05" = some (sys', cancelledCount) ∧
        cancelledCount = 1 ∧
        sys'.appointments[0]? = some { sampleAppointment with status := "emergency-cancelled" } ∧
        sys'.appointments[1]? = some sampleEmergency := by
  refine ⟨by decide, ?_⟩
  obtain ⟨sys', n, h1, _, _, _, _, _, h7, h8, _⟩ :=
    markEmergency_cascade sampleDoubleBooked 0 sampleDoctorOnDuty "2025-04-05" (by decide)
  exact ⟨sys', n, h1, h8.trans (by decide),
    (h7 0 sampleAppointment (by decide)).1 (by decide),
    (h7 1 sampleEmergency (by decide)).2 (by decide)⟩

/-! ## What each operation does to the appointment collection -/

/-- The appointment collection after `bookAppointment`: unchanged, or the old
one with one `scheduled` appointment for the requested slot pushed, the slot
having been free. -/
theorem bookAppointment_appointments {sys : HospitalSystem} {self : Nat}
    {doctorID dateTime : String} {rnd : Nat} {r : HospitalSystem × BookOutcome}
    (h : Patient.bookAppointment sys self doctorID dateTime rnd = some r) :
    r.1.appointments = sys.appointments ∨
      ∃ p, sys.patients[self]? = some p ∧ sys.isSlotAvailable doctorID dateTime = true ∧
        r.1.appointments = sys.appointments ++
          [{ apptID := toString (rnd % 100000), doctorID := doctorID, patientID := p.userID,
             dateTime := dateTime, status := "scheduled", isEmergency := false }] := by
  unfold Patient.bookAppointment at h
  cases hp : sys.patients[self]? with
  | none => simp [hp] at h
  | some p =>
    cases hd : sys.findDoctor doctorID with
    | none =>
      simp only [hp, hd, Option.some.injEq] at h
      subst h
      exact Or.inl rfl
    | some i =>
      by_cases hs : sys.isSlotAvailable doctorID dateTime = true
      · simp only [hp, hd, hs, if_true, Option.some.injEq] at h
        subst h
        exact Or.inr ⟨p, rfl, hs, rfl⟩
      · simp only [hp, hd, hs, Bool.false_eq_true, if_false, Option.some.injEq] at h
        subst h
        exact Or.inl rfl

/-- The result of `requestEmergency`: nothing changes when no doctor is on
emergency duty; otherwise one emergency appointment with the first such doctor
is pushed and its ID is pushed on the receiver. -/
theorem requestEmergency_result {sys : HospitalSystem} {self : Nat} {now : String} {rnd : Nat}
    {r : HospitalSystem × EmergencyOutcome}
    (h : Patient.requestEmergency sys self now rnd = some r) :
    ∃ p, sys.patients[self]? = some p ∧
      ((sys.doctors.filter (fun doctor => doctor.onEmergencyDuty) = [] ∧
          r = (sys, .noDoctorAvailable)) ∨
        ∃ first rest, sys.doctors.filter (fun doctor => doctor.onEmergencyDuty) = first :: rest ∧
          r = ({ sys with
                  appointments := sys.appointments ++
                    [{ apptID := "EMG-" ++ toString (rnd % 10000), doctorID := first.userID,
                       patientID := p.userID, dateTime := now, status := "scheduled",
                       isEmergency := true }]
                  patients := sys.patients.set self
                    { p with appointmentIDs :=
                        p.appointmentIDs ++ ["EMG-" ++ toString (rnd % 10000)] } },
               .created ("EMG-" ++ toString (rnd % 10000)))) := by
  unfold Patient.requestEmergency at h
  cases hp : sys.patients[self]? with
  | none => simp [hp] at h
  | some p =>
    refine ⟨p, rfl, ?_⟩
    cases hf : sys.doctors.filter (fun doctor => doctor.onEmergencyDuty) with
    | nil =>
      simp only [hp, hf, Option.some.injEq] at h
      exact Or.inl ⟨rfl, h.symm⟩
    | cons first rest =>
      simp only [hp, hf, Option.some.injEq] at h
      exact Or.inr ⟨first, rest, rfl, h.symm⟩

/-- The appointment collection after `cancelAppointment`: unchanged, or one
`scheduled` appointment replaced by its `patient-cancelled` copy. -/
theorem cancelAppointment_appointments {sys : HospitalSystem} {self : Nat} {aptID : String}
    {r : HospitalSystem × CancelOutcome}
    (h : Patient.cancelAppointment sys self aptID = some r) :
    r.1.appointments = sys.appointments ∨
      ∃ i appt, sys.appointments[i]? = some appt ∧ appt.status = "scheduled" ∧
        r.1.appointments = sys.appointments.set i (appt.cancel "patient-cancelled") := by
  obtain ⟨sys', out⟩ := r
  cases out with
  | cancelled =>
    obtain ⟨p, i, appt, _, _, ha, _, hst, hsys⟩ := cancelAppointment_cancelled h
    exact Or.inr ⟨i, appt, ha, hst, by rw [hsys]⟩
  | notFoundOrNotCancellable =>
    left
    unfold Patient.cancelAppointment at h
    cases hp : sys.patients[self]? with
    | none => simp [hp] at h
    | some p =>
      simp only [hp] at h
      split at h
      · split at h
        · simp at h
        · simp only [Option.some.injEq, Prod.mk.injEq, and_true] at h
          rw [← h]
      · simp only [Option.some.injEq, Prod.mk.injEq, and_true] at h
        rw [← h]

/-- The appointment collection after `reschedule`: unchanged, or the receiver
moved to a `dateTime` that was free for its doctor. -/
theorem reschedule_appointments {sys : HospitalSystem} {self : Nat} {newDateTime : String}
    {r : HospitalSystem × RescheduleOutcome}
    (h : Appointment.reschedule sys self newDateTime = some r) :
    r.1.appointments = sys.appointments ∨
      ∃ appt, sys.appointments[self]? = some appt ∧
        sys.isSlotAvailable appt.doctorID newDateTime = true ∧
        r.1.appointments = sys.appointments.set self { appt with dateTime := newDateTime } := by
  unfold Appointment.reschedule at h
  cases ha : sys.appointments[self]? with
  | none => simp [ha] at h
  | some appt =>
    by_cases hs : sys.isSlotAvailable appt.doctorID newDateTime = true
    · simp only [ha, hs, if_true, Option.some.injEq] at h
      subst h
      exact Or.inr ⟨appt, rfl, hs, rfl⟩
    · simp only [ha, hs, Bool.false_eq_true, if_false, Option.some.injEq] at h
      subst h
      exact Or.inl rfl

/-- The appointment collection after `markEmergency`: the cascade applied to
every element. -/
theorem markEmergency_appointments {sys : HospitalSystem} {self : Nat} {today : String}
    {r : HospitalSystem × Nat}
    (h : Doctor.markEmergency sys self today = some r) :
    ∃ d, sys.doctors[self]? = some d ∧
      r.1.appointments = sys.appointments.map
        (fun a => if a.cascades d.userID today then a.cancel "emergency-cancelled" else a) := by
  unfold Doctor.markEmergency at h
  cases hd : sys.doctors[self]? with
  | none => simp [hd] at h
  | some d =>
    simp only [hd, Option.some.injEq] at h
    subst h
    exact ⟨d, rfl, markEmergencyLoop_fst _ _ _⟩

/-- The appointment collection after `manageEmergencyOverrides`: unchanged, or
the cascade of some doctor. -/
theorem manageEmergencyOverrides_appointments {sys : HospitalSystem} {doctorID today : String}
    {r : HospitalSystem × OverrideOutcome}
    (h : Admin.manageEmergencyOverrides sys doctorID today = some r) :
    r.1.appointments = sys.appointments ∨
      ∃ userID, r.1.appointments = sys.appointments.map
        (fun a => if a.cascades userID today then a.cancel "emergency-cancelled" else a) := by
  unfold Admin.manageEmergencyOverrides at h
  cases hf : sys.findDoctor doctorID with
  | none =>
    simp only [hf, Option.some.injEq] at h
    subst h
    exact Or.inl rfl
  | some i =>
    simp only [hf, Option.map_eq_some'] at h
    obtain ⟨r', hr', hr⟩ := h
    obtain ⟨d, _, hd⟩ := markEmergency_appointments hr'
    subst hr
    exact Or.inr ⟨d.userID, hd⟩

/-! ## The slot-conflict invariant -/

theorem conflicts_eq_false_of_free {x b : Appointment}
    (h : x.occupies b.doctorID b.dateTime = false) : x.conflicts b = false := by
  rw [← Bool.not_eq_true] at h ⊢
  intro hc
  apply h
  simp only [Appointment.conflicts, Appointment.isActive, Bool.and_eq_true, Bool.or_eq_true,
    beq_iff_eq] at hc
  rw [occupies_eq_true]
  exact ⟨hc.1.2, hc.2, hc.1.1.1⟩

theorem conflicts_eq_false_of_inactive {x b : Appointment} (h : b.isActive = false) :
    x.conflicts b = false := by
  simp [Appointment.conflicts, h]

theorem slotConflictFree_push {l : List Appointment} {b : Appointment}
    (hinv : SlotConflictFree l) (hfree : ∀ x ∈ l, x.conflicts b = false) :
    SlotConflictFree (l ++ [b]) := by
  unfold SlotConflictFree at hinv ⊢
  rw [List.pairwise_append]
  refine ⟨hinv, List.pairwise_singleton _ _, ?_⟩
  intro x hx y hy
  rw [List.mem_singleton] at hy
  subst hy
  exact hfree x hx

theorem slotConflictFree_set {l : List Appointment} {b : Appointment} (i : Nat)
    (hinv : SlotConflictFree l) (hfree : ∀ x ∈ l, x.conflicts b = false) :
    SlotConflictFree (l.set i b) := by
  cases ha : l[i]? with
  | none =>
    rw [List.getElem?_eq_none_iff] at ha
    rw [List.set_eq_of_length_le ha]
    exact hinv
  | some a =>
    obtain ⟨pre, post, hl, _, hset⟩ := getElem?_split l i a ha
    rw [hset b]
    unfold SlotConflictFree at hinv ⊢
    rw [hl, List.pairwise_append, List.pairwise_cons] at hinv
    obtain ⟨hpre, ⟨_, hpost⟩, hcross⟩ := hinv
    rw [List.pairwise_append, List.pairwise_cons]
    refine ⟨hpre, ⟨?_, hpost⟩, ?_⟩
    · intro y hy
      rw [conflicts_comm]
      exact hfree y (by rw [hl]; simp [hy])
    · intro x hx y hy
      rw [List.mem_cons] at hy
      rcases hy with hy | hy
      · subst hy
        exact hfree x (by rw [hl]; simp [hx])
      · exact hcross x hx y (List.mem_cons_of_mem _ hy)

theorem slotConflictFree_cascade {l : List Appointment} (userID today : String)
    (hinv : SlotConflictFree l) :
    SlotConflictFree (l.map
      (fun a => if a.cascades userID today then a.cancel "emergency-cancelled" else a)) := by
  unfold SlotConflictFree at hinv ⊢
  rw [List.pairwise_map]
  refine hinv.imp ?_
  intro a b hab
  by_cases ha : a.cascades userID today = true
  · simp [ha, Appointment.conflicts, Appointment.isActive, Appointment.cancel]
  · by_cases hb : b.cascades userID today = true
    · simp [hb, Appointment.conflicts, Appointment.isActive, Appointment.cancel]
    · simpa [ha, hb] using hab

theorem occupies_of_conflicts {a b : Appointment} (h : a.conflicts b = true) :
    a.occupies a.doctorID a.dateTime = true ∧ b.occupies a.doctorID a.dateTime = true := by
  simp only [Appointment.conflicts, Appointment.isActive, Bool.and_eq_true, Bool.or_eq_true,
    beq_iff_eq] at h
  obtain ⟨⟨⟨ha, hb⟩, hd⟩, ht⟩ := h
  constructor
  · rw [occupies_eq_true]; exact ⟨rfl, rfl, ha⟩
  · rw [occupies_eq_true]; exact ⟨hd.symm, ht.symm, hb⟩

/-- The invariant read slot by slot: every `(doctorID, dateTime)` is occupied by
at most one appointment of the collection. -/
theorem slotConflictFree_iff_count (l : List Appointment) :
    SlotConflictFree l ↔
      ∀ doctorID dateTime : String, l.countP (fun a => a.occupies doctorID dateTime) ≤ 1 := by
  unfold SlotConflictFree
  induction l with
  | nil => simp
  | cons a tl ih =>
    rw [List.pairwise_cons, ih]
    constructor
    · rintro ⟨hcross, htl⟩ doctorID dateTime
      rw [List.countP_cons]
      by_cases ha : a.occupies doctorID dateTime = true
      · have hzero : tl.countP (fun a => a.occupies doctorID dateTime) = 0 := by
          rw [List.countP_eq_zero]
          intro b hb hbo
          have := hcross b hb
          rw [conflicts_of_occupies ha hbo] at this
          exact Bool.noConfusion this
        simp [ha, hzero]
      · have := htl doctorID dateTime
        simp [ha, this]
    · intro h
      constructor
      · intro b hb
        rw [← Bool.not_eq_true]
        intro hc
        obtain ⟨ha, hbo⟩ := occupies_of_conflicts hc
        have hpos : 0 < tl.countP (fun x => x.occupies a.doctorID a.dateTime) :=
          List.countP_pos_iff.mpr ⟨b, hb, hbo⟩
        have := h a.doctorID a.dateTime
        rw [List.countP_cons] at this
        simp only [ha, if_true] at this
        omega
      · intro doctorID dateTime
        have := h doctorID dateTime
        rw [List.countP_cons] at this
        omega

/-- C5, as the code has it: the slot-conflict invariant of the appointment
collection is kept by `bookAppointment`, `cancelAppointment`, `markEmergency`
(also through `manageEmergencyOverrides`) and `reschedule` for every input, and
by `requestEmergency` whenever the slot of the first doctor on emergency duty
at the current time is free (or no doctor is on duty). -/
theorem slotConflictFree_preserved (sys sys' : HospitalSystem) (op : Operation)
    (hinv : SlotConflictFree sys.appointments)
    (hfree : op.emergencySlotFree sys = true)
    (hrun : op.run sys = some sys') :
    SlotConflictFree sys'.appointments := by
  cases op with
  | bookAppointment self doctorID dateTime rnd =>
    simp only [Operation.run, Option.map_eq_some'] at hrun
    obtain ⟨r, hr, rfl⟩ := hrun
    rcases bookAppointment_appointments hr with h | ⟨p, _, hs, h⟩
    · rw [h]; exact hinv
    · rw [h]
      refine slotConflictFree_push hinv ?_
      intro x hx
      apply conflicts_eq_false_of_free
      exact (isSlotAvailableLoop_eq_true _ _ _).mp hs x hx
  | cancelAppointment self aptID =>
    simp only [Operation.run, Option.map_eq_some'] at hrun
    obtain ⟨r, hr, rfl⟩ := hrun
    rcases cancelAppointment_appointments hr with h | ⟨i, appt, _, _, h⟩
    · rw [h]; exact hinv
    · rw [h]
      refine slotConflictFree_set i hinv ?_
      intro x _
      exact conflicts_eq_false_of_inactive (by simp [Appointment.isActive, Appointment.cancel])
  | requestEmergency self now rnd =>
    simp only [Operation.run, Option.map_eq_some'] at hrun
    obtain ⟨r, hr, rfl⟩ := hrun
    obtain ⟨p, _, h⟩ := requestEmergency_result hr
    rcases h with ⟨_, h⟩ | ⟨first, rest, hf, h⟩
    · rw [h]; exact hinv
    · rw [h]
      simp only [Operation.emergencySlotFree, hf] at hfree
      refine slotConflictFree_push hinv ?_
      intro x hx
      apply conflicts_eq_false_of_free
      exact (isSlotAvailableLoop_eq_true _ _ _).mp hfree x hx
  | markEmergency self today =>
    simp only [Operation.run, Option.map_eq_some'] at hrun
    obtain ⟨r, hr, rfl⟩ := hrun
    obtain ⟨d, _, h⟩ := markEmergency_appointments hr
    rw [h]
    exact slotConflictFree_cascade _ _ hinv
  | manageEmergencyOverrides doctorID today =>
    simp only [Operation.run, Option.map_eq_some'] at hrun
    obtain ⟨r, hr, rfl⟩ := hrun
    rcases manageEmergencyOverrides_appointments hr with h | ⟨u, h⟩
    · rw [h]; exact hinv
    · rw [h]
      exact slotConflictFree_cascade _ _ hinv
  | reschedule self newDateTime =>
    simp only [Operation.run, Option.map_eq_some'] at hrun
    obtain ⟨r, hr, rfl⟩ := hrun
    rcases reschedule_appointments hr with h | ⟨appt, _, hs, h⟩
    · rw [h]; exact hinv
    · rw [h]
      refine slotConflictFree_set self hinv ?_
      intro x hx
      apply conflicts_eq_false_of_free
      exact (isSlotAvailableLoop_eq_true _ _ _).mp hs x hx

theorem slotConflictFree_preserved_witness :
    SlotConflictFree sampleOnDuty.appointments ∧
      (Operation.requestEmergency 1 "2025-04-05 11:00" 7).emergencySlotFree sampleOnDuty = true ∧
      (Operation.requestEmergency 1 "2025-04-05 11:00" 7).run sampleOnDuty
        = some sampleEmergencyLater ∧
      SlotConflictFree sampleEmergencyLater.appointments :=
  ⟨by decide, by decide, by decide,
   slotConflictFree_preserved sampleOnDuty sampleEmergencyLater
     (.requestEmergency 1 "2025-04-05 11:00" 7) (by decide) (by decide) (by decide)⟩

/-- C5 fails as stated: `sampleOnDuty` satisfies the slot-conflict invariant, `P2`
requests an emergency at 10:00 on 5 April 2025, the minute for which `D1` (on
emergency duty) already has the scheduled appointment `42`, and the resulting
collection holds two scheduled appointments for `D1` at that time. -/
theorem slotConflictFree_counterexample :
    SlotConflictFree sampleOnDuty.appointments ∧
      Patient.requestEmergency sampleOnDuty 1 "2025-04-05 10:00" 7
        = some (sampleDoubleBooked, .created "EMG-7") ∧
      ¬ SlotConflictFree sampleDoubleBooked.appointments := by
  decide

/-! ## Status transitions -/

theorem getElem?_lt_length {α : Type} {l : List α} {i : Nat} {a : α} (h : l[i]? = some a) :
    i < l.length := by
  rcases Nat.lt_or_ge i l.length with hlt | hge
  · exact hlt
  · rw [List.getElem?_eq_none hge] at h
    exact Option.noConfusion h

theorem getElem?_push_of_some {α : Type} {l : List α} {i : Nat} {a : α} (b : α)
    (h : l[i]? = some a) : (l ++ [b])[i]? = some a := by
  rw [List.getElem?_append_left (getElem?_lt_length h)]
  exact h

/-- C6: for each of the operations (`bookAppointment`, `cancelAppointment`,
`requestEmergency`, `markEmergency`, `manageEmergencyOverrides`, `reschedule`)
and each appointment of the collection before it, the appointment is still at
its position afterwards; if its status was not `scheduled` the status is the
same; and if the status differs, it was `scheduled` and is now one of
`completed`, `cancelled`, `patient-cancelled`, `emergency-cancelled`. -/
theorem status_one_directional (sys sys' : HospitalSystem) (op : Operation)
    (hrun : op.run sys = some sys') (i : Nat) (a : Appointment)
    (ha : sys.appointments[i]? = some a) :
    ∃ a' : Appointment, sys'.appointments[i]? = some a' ∧
      (a.status ≠ "scheduled" → a'.status = a.status) ∧
      (a'.status ≠ a.status →
        a.status = "scheduled" ∧
          a'.status ∈ ["completed", "cancelled", "patient-cancelled", "emergency-cancelled"]) := by
  have same : ∀ l : List Appointment, l[i]? = some a → ∃ a' : Appointment, l[i]? = some a' ∧
      (a.status ≠ "scheduled" → a'.status = a.status) ∧
      (a'.status ≠ a.status →
        a.status = "scheduled" ∧
          a'.status ∈ ["completed", "cancelled", "patient-cancelled", "emergency-cancelled"]) :=
    fun l hl => ⟨a, hl, fun _ => rfl, fun h => absurd rfl h⟩
  have cascade : ∀ userID today : String, ∃ a' : Appointment,
      (sys.appointments.map
        (fun a => if a.cascades userID today then a.cancel "emergency-cancelled" else a))[i]?
          = some a' ∧
      (a.status ≠ "scheduled" → a'.status = a.status) ∧
      (a'.status ≠ a.status →
        a.status = "scheduled" ∧
          a'.status ∈ ["completed", "cancelled", "patient-cancelled", "emergency-cancelled"]) := by
    intro userID today
    by_cases hc : a.cascades userID today = true
    · have hst : a.status = "scheduled" := ((cascades_eq_true a userID today).mp hc).2.2.1
      refine ⟨a.cancel "emergency-cancelled", by simp [List.getElem?_map, ha, hc],
        fun h => absurd hst h, fun _ => ⟨hst, by simp [Appointment.cancel]⟩⟩
    · exact ⟨a, by simp [List.getElem?_map, ha, hc], fun _ => rfl, fun h => absurd rfl h⟩
  cases op with
  | bookAppointment self doctorID dateTime rnd =>
    simp only [Operation.run, Option.map_eq_some'] at hrun
    obtain ⟨r, hr, rfl⟩ := hrun
    rcases bookAppointment_appointments hr with h | ⟨p, _, _, h⟩
    · rw [h]; exact same _ ha
    · rw [h]; exact same _ (getElem?_push_of_some _ ha)
  | cancelAppointment self aptID =>
    simp only [Operation.run, Option.map_eq_some'] at hrun
    obtain ⟨r, hr, rfl⟩ := hrun
    rcases cancelAppointment_appointments hr with h | ⟨j, appt, hj, hst, h⟩
    · rw [h]; exact same _ ha
    · rw [h]
      by_cases hij : j = i
      · subst hij
        rw [ha] at hj
        injection hj with hj
        subst hj
        refine ⟨a.cancel "patient-cancelled", ?_, fun h => absurd hst h,
          fun _ => ⟨hst, by simp [Appointment.cancel]⟩⟩
        simp [List.getElem?_set, getElem?_lt_length ha]
      · refine same _ ?_
        rw [List.getElem?_set_ne hij]
        exact ha
  | requestEmergency self now rnd =>
    simp only [Operation.run, Option.map_eq_some'] at hrun
    obtain ⟨r, hr, rfl⟩ := hrun
    obtain ⟨p, _, h⟩ := requestEmergency_result hr
    rcases h with ⟨_, h⟩ | ⟨first, rest, hf, h⟩
    · rw [h]; exact same _ ha
    · rw [h]; exact same _ (getElem?_push_of_some _ ha)
  | markEmergency self today =>
    simp only [Operation.run, Option.map_eq_some'] at hrun
    obtain ⟨r, hr, rfl⟩ := hrun
    obtain ⟨d, _, h⟩ := markEmergency_appointments hr
    rw [h]
    exact cascade _ _
  | manageEmergencyOverrides doctorID today =>
    simp only [Operation.run, Option.map_eq_some'] at hrun
    obtain ⟨r, hr, rfl⟩ := hrun
    rcases manageEmergencyOverrides_appointments hr with h | ⟨u, h⟩
    · rw [h]; exact same _ ha
    · rw [h]
      exact cascade _ _
  | reschedule self newDateTime =>
    simp only [Operation.run, Option.map_eq_some'] at hrun
    obtain ⟨r, hr, rfl⟩ := hrun
    rcases reschedule_appointments hr with h | ⟨appt, hself, _, h⟩
    · rw [h]; exact same _ ha
    · rw [h]
      by_cases hij : self = i
      · subst hij
        rw [ha] at hself
        injection hself with hself
        subst hself
        refine ⟨{ a with dateTime := newDateTime }, ?_, fun _ => rfl, fun h => absurd rfl h⟩
        simp [List.getElem?_set, getElem?_lt_length ha]
      · refine same _ ?_
        rw [List.getElem?_set_ne hij]
        exact ha

theorem status_one_directional_witness :
    (Operation.cancelAppointment 0 "42").run sampleDoubleBooked
        = some { sampleDoubleBooked with
                 appointments :=
                   [sampleAppointment.cancel "patient-cancelled", sampleEmergency] } ∧
      sampleDoubleBooked.appointments[0]? = some sampleAppointment ∧
      ∃ a' : Appointment,
        [sampleAppointment.cancel "patient-cancelled", sampleEmergency][0]? = some a' ∧
        (sampleAppointment.status ≠ "scheduled" → a'.status = sampleAppointment.status) ∧
        (a'.status ≠ sampleAppointment.status →
          sampleAppointment.status = "scheduled" ∧
            a'.status ∈ ["completed", "cancelled", "patient-cancelled", "emergency-cancelled"]) :=
  ⟨by decide, by decide,
   status_one_directional sampleDoubleBooked
     { sampleDoubleBooked with
       appointments := [sampleAppointment.cancel "patient-cancelled", sampleEmergency] }
     (.cancelAppointment 0 "42") (by decide) 0 sampleAppointment (by decide)⟩

/-! ## Appointment identifiers -/

theorem uniqueApptIDs_push {l : List Appointment} {b : Appointment} (hinv : UniqueApptIDs l) :
    UniqueApptIDs (l ++ [b]) ↔ ∀ a ∈ l, a.apptID ≠ b.apptID := by
  unfold UniqueApptIDs at hinv ⊢
  rw [List.map_append, List.nodup_append]
  simp only [hinv, List.map_cons, List.map_nil, List.nodup_cons, List.not_mem_nil,
    not_false_eq_true, List.nodup_nil, and_self, true_and]
  constructor
  · intro h a ha heq
    exact h (List.mem_map_of_mem (fun a => a.apptID) ha) (by rw [heq]; exact List.mem_singleton_self _)
  · intro h x hx hb
    rw [List.mem_singleton] at hb
    obtain ⟨a, ha, hax⟩ := List.mem_map.mp hx
    exact h a ha (hax.trans hb)

/-- C7, as the code has it: from a collection with pairwise distinct `apptID`, a
successful `bookAppointment` gives the new appointment the ID
`to_string(rand() % 100000)` and a successful `requestEmergency` the ID
`"EMG-" + to_string(rand() % 10000)`, and the resulting collection has pairwise
distinct `apptID` exactly when that ID is not the `apptID` of an appointment
already in the collection. -/
theorem apptID_unique_iff_fresh (sys : HospitalSystem)
    (hinv : UniqueApptIDs sys.appointments) :
    (∀ (self : Nat) (doctorID dateTime : String) (rnd : Nat) (sys' : HospitalSystem)
        (apptID : String),
        Patient.bookAppointment sys self doctorID dateTime rnd = some (sys', .booked apptID) →
          apptID = toString (rnd % 100000) ∧
          (UniqueApptIDs sys'.appointments ↔ ∀ a ∈ sys.appointments, a.apptID ≠ apptID)) ∧
    (∀ (self : Nat) (now : String) (rnd : Nat) (sys' : HospitalSystem) (apptID : String),
        Patient.requestEmergency sys self now rnd = some (sys', .created apptID) →
          apptID = "EMG-" ++ toString (rnd % 10000) ∧
          (UniqueApptIDs sys'.appointments ↔ ∀ a ∈ sys.appointments, a.apptID ≠ apptID)) := by
  constructor
  · intro self doctorID dateTime rnd sys' apptID h
    obtain ⟨p, _, _, _, hid, hsys⟩ := bookAppointment_booked h
    refine ⟨hid, ?_⟩
    rw [hsys]
    exact uniqueApptIDs_push hinv
  · intro self now rnd sys' apptID h
    obtain ⟨p, _, hr⟩ := requestEmergency_result h
    rcases hr with ⟨_, hr⟩ | ⟨first, rest, _, hr⟩
    · simp at hr
    · simp only [Prod.mk.injEq, EmergencyOutcome.created.injEq] at hr
      obtain ⟨hsys, hid⟩ := hr
      refine ⟨hid, ?_⟩
      rw [hsys, hid]
      exact uniqueApptIDs_push hinv

theorem apptID_unique_iff_fresh_witness :
    UniqueApptIDs sampleOnDuty.appointments ∧
      Patient.requestEmergency sampleOnDuty 1 "2025-04-05 11:00" 7
        = some (sampleEmergencyLater, .created "EMG-7") ∧
      (UniqueApptIDs sampleEmergencyLater.appointments ↔
        ∀ a ∈ sampleOnDuty.appointments, a.apptID ≠ "EMG-7") ∧
      UniqueApptIDs sampleEmergencyLater.appointments :=
  ⟨by decide, by decide,
   ((apptID_unique_iff_fresh sampleOnDuty (by decide)).2 1 "2025-04-05 11:00" 7
      sampleEmergencyLater "EMG-7" (by decide)).2,
   by decide⟩

/-- C7 fails as stated: the appointments of `sampleBooked` have distinct IDs, `P2`
books `D1` for 11:00 with `rand()` giving 42 again, the booking succeeds with ID
`42`, and the collection then holds two appointments with `apptID` `42`. -/
theorem apptID_unique_counterexample :
    UniqueApptIDs sampleBooked.appointments ∧
      ∃ sys' : HospitalSystem,
        Patient.bookAppointment sampleBooked 1 "D1" "2025-04-05 11:00" 42
          = some (sys', .booked "42") ∧
        sys'.appointments =
          [sampleAppointment,
           { apptID := "42", doctorID := "D1", patientID := "P2",
             dateTime := "2025-04-05 11:00", status := "scheduled" }] ∧
        ¬ UniqueApptIDs sys'.appointments := by
  refine ⟨by decide, _, rfl, by decide, by decide⟩

/-! ## Authentication -/

theorem find?_tagFrom {α : Type} (mk : Nat → UserRef) (toUser : α → User) (q : User → Bool) :
    ∀ (l : List α) (k : Nat),
      ((tagFrom mk toUser k l).find? (fun ru => q ru.2)).map (fun ru => ru.1) =
        (firstIndex (fun x => q (toUser x)) l).map (fun i => mk (k + i)) := by
  intro l
  induction l with
  | nil => intro k; rfl
  | cons x rest ih =>
    intro k
    unfold tagFrom firstIndex
    by_cases hq : q (toUser x) = true
    · simp [List.find?_cons, hq]
    · simp only [List.find?_cons, hq, Bool.false_eq_true, if_false, ih (k + 1), Option.map_map]
      congr 1
      funext i
      simp only [Function.comp]
      congr 1
      omega

theorem map_snd_tagFrom {α : Type} (mk : Nat → UserRef) (toUser : α → User) :
    ∀ (l : List α) (k : Nat), (tagFrom mk toUser k l).map (fun ru => ru.2) = l.map toUser := by
  intro l
  induction l with
  | nil => intro k; rfl
  | cons x rest ih => intro k; simp [tagFrom, ih (k + 1)]

/-- The three loops of `authenticateUser` are one search through
doctors ++ patients ++ admins for the first user that has the supplied ID and
whose digest matches. -/
theorem authenticateUser_eq_find (hasher : String → Nat) (sys : HospitalSystem)
    (userID password : String) :
    sys.authenticateUser hasher userID password =
      (sys.allUsers.find? (fun ru => ru.2.accepts hasher userID password)).map
        (fun ru => ru.1) := by
  unfold HospitalSystem.allUsers
  have hd := find?_tagFrom .doctor Doctor.toUser (User.accepts hasher userID password)
    sys.doctors 0
  have hp := find?_tagFrom .patient Patient.toUser (User.accepts hasher userID password)
    sys.patients 0
  have ha := find?_tagFrom .admin Admin.toUser (User.accepts hasher userID password)
    sys.admins 0
  simp only [Nat.zero_add] at hd hp ha
  rw [List.find?_append, List.find?_append]
  unfold HospitalSystem.authenticateUser
  cases h1 : firstIndex (fun d : Doctor => d.toUser.accepts hasher userID password) sys.doctors with
  | some i =>
    rw [h1] at hd
    cases hf : (tagFrom UserRef.doctor Doctor.toUser 0 sys.doctors).find?
        (fun ru => ru.2.accepts hasher userID password) with
    | none => rw [hf] at hd; simp at hd
    | some ru => rw [hf] at hd; simpa using hd.symm
  | none =>
    rw [h1] at hd
    have hf : (tagFrom UserRef.doctor Doctor.toUser 0 sys.doctors).find?
        (fun ru => ru.2.accepts hasher userID password) = none := by
      simpa using hd
    rw [hf, Option.none_or]
    cases h2 : firstIndex (fun p : Patient => p.toUser.accepts hasher userID password)
        sys.patients with
    | some i =>
      rw [h2] at hp
      cases hf2 : (tagFrom UserRef.patient Patient.toUser 0 sys.patients).find?
          (fun ru => ru.2.accepts hasher userID password) with
      | none => rw [hf2] at hp; simp at hp
      | some ru => rw [hf2] at hp; simpa using hp.symm
    | none =>
      rw [h2] at hp
      have hf2 : (tagFrom UserRef.patient Patient.toUser 0 sys.patients).find?
          (fun ru => ru.2.accepts hasher userID password) = none := by
        simpa using hp
      rw [hf2, Option.none_or, ha]
      cases h3 : firstIndex (fun a : Admin => a.toUser.accepts hasher userID password)
          sys.admins with
      | some i => rfl
      | none => rfl

theorem accepts_eq_true (hasher : String → Nat) (userID password : String) (u : User) :
    u.accepts hasher userID password = true ↔
      u.userID = userID ∧ hashPassword hasher password = u.password := by
  simp [User.accepts, User.verifyPassword]

/-- C8, as the code has it: `authenticateUser` returns the first user of
doctors ++ patients ++ admins whose `userID` is the supplied one and whose
stored digest is the digest of the supplied password, and it succeeds exactly
when there is such a user. -/
theorem authenticateUser_first_accepted (hasher : String → Nat) (sys : HospitalSystem)
    (userID password : String) :
    sys.authenticateUser hasher userID password =
        (sys.allUsers.find?
          (fun ru => ru.2.userID == userID && hashPassword hasher password == ru.2.password)).map
          (fun ru => ru.1) ∧
      ((sys.authenticateUser hasher userID password).isSome = true ↔
        ∃ ru ∈ sys.allUsers, ru.2.userID = userID ∧
          hashPassword hasher password = ru.2.password) := by
  have h := authenticateUser_eq_find hasher sys userID password
  refine ⟨h, ?_⟩
  rw [h]
  cases hf : sys.allUsers.find? (fun ru => ru.2.accepts hasher userID password) with
  | none =>
    simp only [Option.map_none', Option.isSome_none, Bool.false_eq_true, false_iff]
    rintro ⟨ru, hru, hacc⟩
    rw [List.find?_eq_none] at hf
    exact hf ru hru ((accepts_eq_true hasher userID password ru.2).mpr hacc)
  | some ru =>
    simp only [Option.map_some', Option.isSome_some, true_iff]
    have hacc : ru.2.accepts hasher userID password = true :=
      List.find?_some (p := fun ru : UserRef × User => ru.2.accepts hasher userID password) hf
    exact ⟨ru, List.mem_of_find?_eq_some hf,
      (accepts_eq_true hasher userID password ru.2).mp hacc⟩

/-- C8 fails as stated: in `sampleCollision` the first user with ID `X1` is the
doctor, whose digest is not that of `patient1`, so the specification's reading
gives failure; `authenticateUser` goes on to the patient and returns it. -/
theorem authenticateUser_counterexample :
    authenticateFirstID sampleHasher sampleCollision "X1" "patient1" = none ∧
      sampleCollision.authenticateUser sampleHasher "X1" "patient1" = some (.patient 0) := by
  decide

/-! ## Authentication with distinct IDs -/

theorem authenticateUser_eq_inOrder (hasher : String → Nat) (sys : HospitalSystem)
    (userID password : String) :
    sys.authenticateUser hasher userID password =
      authenticateInOrder hasher sys userID password [.doctor, .patient, .admin] := by
  unfold HospitalSystem.authenticateUser
  simp only [authenticateInOrder, scanRole]
  cases firstIndex (fun d : Doctor => d.toUser.accepts hasher userID password) sys.doctors with
  | some i => rfl
  | none =>
    cases firstIndex (fun p : Patient => p.toUser.accepts hasher userID password)
        sys.patients with
    | some i => rfl
    | none =>
      cases firstIndex (fun a : Admin => a.toUser.accepts hasher userID password)
          sys.admins with
      | some i => rfl
      | none => rfl

theorem firstIndex_accepts_mem {α : Type} (toUser : α → User) (hasher : String → Nat)
    (userID password : String) (l : List α) (i : Nat)
    (h : firstIndex (fun x => (toUser x).accepts hasher userID password) l = some i) :
    ∃ x ∈ l, (toUser x).userID = userID := by
  obtain ⟨x, hx, hacc, _⟩ := firstIndex_some _ l i h
  exact ⟨x, List.getElem?_mem hx, ((accepts_eq_true hasher userID password _).mp hacc).1⟩

/-- With distinct user IDs, no ID belongs to users of two collections. -/
theorem ids_disjoint (sys : HospitalSystem)
    (hdistinct : (sys.allUsers.map (fun ru => ru.2.userID)).Nodup) :
    (∀ d ∈ sys.doctors, ∀ p ∈ sys.patients, d.userID ≠ p.userID) ∧
      (∀ d ∈ sys.doctors, ∀ a ∈ sys.admins, d.userID ≠ a.userID) ∧
      (∀ p ∈ sys.patients, ∀ a ∈ sys.admins, p.userID ≠ a.userID) := by
  have hmap : sys.allUsers.map (fun ru => ru.2.userID) =
      sys.doctors.map (fun d => d.userID) ++
        (sys.patients.map (fun p => p.userID) ++ sys.admins.map (fun a => a.userID)) := by
    have e : (fun ru : UserRef × User => ru.2.userID) =
        (fun u : User => u.userID) ∘ (fun ru : UserRef × User => ru.2) := rfl
    unfold HospitalSystem.allUsers
    rw [e, ← List.map_map]
    simp only [List.map_append, map_snd_tagFrom, List.map_map]
    rfl
  rw [hmap, List.nodup_append, List.nodup_append] at hdistinct
  obtain ⟨_, ⟨_, _, hpa⟩, hd⟩ := hdistinct
  refine ⟨?_, ?_, ?_⟩
  · intro d hd' p hp heq
    have h1 : d.userID ∈ sys.doctors.map (fun d => d.userID) :=
      List.mem_map_of_mem (fun d : Doctor => d.userID) hd'
    have h2 : p.userID ∈ sys.patients.map (fun p => p.userID) :=
      List.mem_map_of_mem (fun p : Patient => p.userID) hp
    rw [← heq] at h2
    exact List.disjoint_left.mp hd h1 (List.mem_append_left _ h2)
  · intro d hd' a ha heq
    have h1 : d.userID ∈ sys.doctors.map (fun d => d.userID) :=
      List.mem_map_of_mem (fun d : Doctor => d.userID) hd'
    have h2 : a.userID ∈ sys.admins.map (fun a => a.userID) :=
      List.mem_map_of_mem (fun a : Admin => a.userID) ha
    rw [← heq] at h2
    exact List.disjoint_left.mp hd h1 (List.mem_append_right _ h2)
  · intro p hp a ha heq
    have h1 : p.userID ∈ sys.patients.map (fun p => p.userID) :=
      List.mem_map_of_mem (fun p : Patient => p.userID) hp
    have h2 : a.userID ∈ sys.admins.map (fun a => a.userID) :=
      List.mem_map_of_mem (fun a : Admin => a.userID) ha
    rw [← heq] at h2
    exact List.disjoint_left.mp hpa h1 h2

/-- With distinct user IDs, at most one of the three scans finds a user. -/
theorem scanRole_unique (hasher : String → Nat) (sys : HospitalSystem)
    (userID password : String)
    (hdistinct : (sys.allUsers.map (fun ru => ru.2.userID)).Nodup)
    (r₁ r₂ : Role) (x y : UserRef)
    (h₁ : scanRole hasher sys userID password r₁ = some x)
    (h₂ : scanRole hasher sys userID password r₂ = some y) : r₁ = r₂ := by
  obtain ⟨hdp, hda, hpa⟩ := ids_disjoint sys hdistinct
  have found : ∀ {α : Type} (toUser : α → User) (mk : Nat → UserRef) (l : List α) (z : UserRef),
      (firstIndex (fun x => (toUser x).accepts hasher userID password) l).map mk = some z →
        ∃ x ∈ l, (toUser x).userID = userID := by
    intro α toUser mk l z h
    obtain ⟨i, hi, _⟩ := Option.map_eq_some'.mp h
    exact firstIndex_accepts_mem toUser hasher userID password l i hi
  cases r₁ <;> cases r₂ <;> first
    | rfl
    | (exfalso
       simp only [scanRole] at h₁ h₂
       obtain ⟨u, hu, hue⟩ := found _ _ _ _ h₁
       obtain ⟨v, hv, hve⟩ := found _ _ _ _ h₂
       first
         | exact hdp u hu v hv (hue.trans hve.symm)
         | exact hda u hu v hv (hue.trans hve.symm)
         | exact hpa u hu v hv (hue.trans hve.symm)
         | exact hdp v hv u hu (hve.trans hue.symm)
         | exact hda v hv u hu (hve.trans hue.symm)
         | exact hpa v hv u hu (hve.trans hue.symm))

theorem authenticateInOrder_of_mem (hasher : String → Nat) (sys : HospitalSystem)
    (userID password : String)
    (hdistinct : (sys.allUsers.map (fun ru => ru.2.userID)).Nodup)
    (r : Role) (x : UserRef) (hx : scanRole hasher sys userID password r = some x) :
    ∀ order : List Role, r ∈ order →
      authenticateInOrder hasher sys userID password order = some x := by
  intro order
  induction order with
  | nil => intro h; simp at h
  | cons r₀ rest ih =>
    intro hmem
    unfold authenticateInOrder
    cases h₀ : scanRole hasher sys userID password r₀ with
    | some y =>
      have hr := scanRole_unique hasher sys userID password hdistinct r₀ r y x h₀ hx
      subst hr
      rw [h₀] at hx
      simpa using hx
    | none =>
      simp only
      rcases List.mem_cons.mp hmem with h | h
      · subst h
        rw [h₀] at hx
        exact Option.noConfusion hx
      · exact ih h

theorem authenticateInOrder_none (hasher : String → Nat) (sys : HospitalSystem)
    (userID password : String)
    (hnone : ∀ r, scanRole hasher sys userID password r = none) :
    ∀ order : List Role, authenticateInOrder hasher sys userID password order = none := by
  intro order
  induction order with
  | nil => rfl
  | cons r₀ rest ih =>
    unfold authenticateInOrder
    rw [hnone r₀]
    exact ih

/-- C9: when the user IDs of the doctor, patient and admin collections are
pairwise distinct, scanning the three collections in any order gives the
result of `authenticateUser`; the result is failure when the supplied
password's digest differs from the stored digest of the user with the supplied
ID, whichever collection holds that user; and it is failure when no user has
the supplied ID. -/
theorem authenticateUser_order_independent (hasher : String → Nat) (sys : HospitalSystem)
    (userID password : String)
    (hdistinct : (sys.allUsers.map (fun ru => ru.2.userID)).Nodup) :
    (∀ order : List Role, order.Perm [.doctor, .patient, .admin] →
        authenticateInOrder hasher sys userID password order =
          sys.authenticateUser hasher userID password) ∧
      (∀ ru ∈ sys.allUsers, ru.2.userID = userID →
        hashPassword hasher password ≠ ru.2.password →
          sys.authenticateUser hasher userID password = none) ∧
      ((∀ ru ∈ sys.allUsers, ru.2.userID ≠ userID) →
        sys.authenticateUser hasher userID password = none) := by
  refine ⟨?_, ?_, ?_⟩
  · intro order hperm
    rw [authenticateUser_eq_inOrder]
    by_cases hex : ∃ r x, scanRole hasher sys userID password r = some x
    · obtain ⟨r, x, hx⟩ := hex
      have hall : r ∈ [Role.doctor, Role.patient, Role.admin] := by cases r <;> simp
      rw [authenticateInOrder_of_mem hasher sys userID password hdistinct r x hx order
          (hperm.mem_iff.mpr hall),
        authenticateInOrder_of_mem hasher sys userID password hdistinct r x hx _ hall]
    · have hnone : ∀ r, scanRole hasher sys userID password r = none := by
        intro r
        cases h : scanRole hasher sys userID password r with
        | none => rfl
        | some x => exact absurd ⟨r, x, h⟩ hex
      rw [authenticateInOrder_none hasher sys userID password hnone,
        authenticateInOrder_none hasher sys userID password hnone]
  · intro ru hru hid hpw
    rw [authenticateUser_eq_find]
    have hf : sys.allUsers.find? (fun ru => ru.2.accepts hasher userID password) = none := by
      rw [List.find?_eq_none]
      intro ru' hru' hacc
      obtain ⟨hid', hpw'⟩ := (accepts_eq_true hasher userID password ru'.2).mp hacc
      have heq : ru' = ru :=
        List.inj_on_of_nodup_map hdistinct hru' hru (hid'.trans hid.symm)
      rw [heq] at hpw'
      exact hpw hpw'
    rw [hf]
    rfl
  · intro hno
    rw [authenticateUser_eq_find]
    have hf : sys.allUsers.find? (fun ru => ru.2.accepts hasher userID password) = none := by
      rw [List.find?_eq_none]
      intro ru' hru' hacc
      exact hno ru' hru' ((accepts_eq_true hasher userID password ru'.2).mp hacc).1
    rw [hf]
    rfl

theorem authenticateUser_order_independent_witness :
    (sampleHashed.allUsers.map (fun ru => ru.2.userID)).Nodup ∧
      authenticateInOrder sampleHasher sampleHashed "P1" "patient1" [.admin, .patient, .doctor]
        = sampleHashed.authenticateUser sampleHasher "P1" "patient1" ∧
      sampleHashed.authenticateUser sampleHasher "P1" "patient1" = some (.patient 0) ∧
      sampleHashed.authenticateUser sampleHasher "P1" "doc" = none :=
  ⟨by decide,
   (authenticateUser_order_independent sampleHasher sampleHashed "P1" "patient1"
      (by decide)).1 [.admin, .patient, .doctor] (by decide),
   by decide, by decide⟩

/-! ## Emergency requests -/

theorem filter_eq_nil_of_all_false {α : Type} (q : α → Bool) (l : List α)
    (h : ∀ x ∈ l, q x = false) : l.filter q = [] := by
  rw [List.filter_eq_nil_iff]
  intro x hx
  rw [h x hx]
  exact Bool.false_ne_true

theorem filter_head_of_first {α : Type} (q : α → Bool) :
    ∀ (l : List α) (i : Nat) (first : α), l[i]? = some first → q first = true →
      (∀ j x, j < i → l[j]? = some x → q x = false) →
      ∃ rest, l.filter q = first :: rest := by
  intro l
  induction l with
  | nil => intro i first h; simp at h
  | cons a tl ih =>
    intro i first h hq hmin
    cases i with
    | zero =>
      simp only [List.getElem?_cons_zero, Option.some.injEq] at h
      subst h
      exact ⟨tl.filter q, by simp [List.filter_cons, hq]⟩
    | succ k =>
      simp only [List.getElem?_cons_succ] at h
      have ha : q a = false := hmin 0 a (Nat.succ_pos k) (by simp)
      obtain ⟨rest, hrest⟩ := ih k first h hq (by
        intro j x hj hx
        exact hmin (j + 1) x (by omega) (by simpa using hx))
      exact ⟨rest, by simp [List.filter_cons, ha, hrest]⟩

/-- C10: for a patient `p` at position `self`, `requestEmergency` returns; when no
doctor has `onEmergencyDuty` set it prints that no doctor is available and
leaves the whole state as it was; when `first` is the first doctor of the
collection with `onEmergencyDuty` set it pushes exactly one appointment, with
`doctorID` the ID of `first`, `patientID` the ID of `p`, `dateTime` the current
time, status `scheduled` and `isEmergency` true, pushes the new ID on the
`appointmentIDs` of `p`, and changes nothing else. -/
theorem requestEmergency_spec (sys : HospitalSystem) (self : Nat) (p : Patient)
    (now : String) (rnd : Nat) (hp : sys.patients[self]? = some p) :
    ((∀ d ∈ sys.doctors, d.onEmergencyDuty = false) →
        Patient.requestEmergency sys self now rnd = some (sys, .noDoctorAvailable)) ∧
      (∀ (i : Nat) (first : Doctor), sys.doctors[i]? = some first →
        first.onEmergencyDuty = true →
        (∀ (j : Nat) (d : Doctor), j < i → sys.doctors[j]? = some d →
          d.onEmergencyDuty = false) →
        ∃ sys' : HospitalSystem,
          Patient.requestEmergency sys self now rnd
            = some (sys', .created ("EMG-" ++ toString (rnd % 10000))) ∧
          sys'.appointments = sys.appointments ++
            [{ apptID := "EMG-" ++ toString (rnd % 10000), doctorID := first.userID,
               patientID := p.userID, dateTime := now, status := "scheduled",
               isEmergency := true }] ∧
          sys'.patients = sys.patients.set self
            { p with appointmentIDs :=
                p.appointmentIDs ++ ["EMG-" ++ toString (rnd % 10000)] } ∧
          sys'.patients[self]? = some
            { p with appointmentIDs :=
                p.appointmentIDs ++ ["EMG-" ++ toString (rnd % 10000)] } ∧
          sys'.doctors = sys.doctors ∧ sys'.admins = sys.admins) := by
  constructor
  · intro hnone
    have hf := filter_eq_nil_of_all_false (fun doctor : Doctor => doctor.onEmergencyDuty)
      sys.doctors hnone
    simp only [Patient.requestEmergency, hp, hf]
  · intro i first hi hduty hmin
    obtain ⟨rest, hf⟩ := filter_head_of_first (fun doctor : Doctor => doctor.onEmergencyDuty)
      sys.doctors i first hi hduty hmin
    refine ⟨{ sys with
        appointments := sys.appointments ++
          [{ apptID := "EMG-" ++ toString (rnd % 10000), doctorID := first.userID,
             patientID := p.userID, dateTime := now, status := "scheduled",
             isEmergency := true }]
        patients := sys.patients.set self
          { p with appointmentIDs :=
              p.appointmentIDs ++ ["EMG-" ++ toString (rnd % 10000)] } },
      by simp only [Patient.requestEmergency, hp, hf], rfl, rfl, ?_, rfl, rfl⟩
    simp [List.getElem?_set, getElem?_lt_length hp]

theorem requestEmergency_spec_witness :
    sampleOnDuty.patients[1]? = some samplePatientTwo ∧
      sampleOnDuty.doctors[0]? = some sampleDoctorOnDuty ∧
      (∃ sys' : HospitalSystem,
        Patient.requestEmergency sampleOnDuty 1 "2025-04-05 10:00" 7
          = some (sys', .created "EMG-7") ∧
        sys'.appointments = [sampleAppointment, sampleEmergency]) ∧
      Patient.requestEmergency sampleBooked 1 "2025-04-05 10:00" 7
        = some (sampleBooked, .noDoctorAvailable) := by
  refine ⟨by decide, by decide, ?_, ?_⟩
  · obtain ⟨sys', h1, h2, _⟩ :=
      (requestEmergency_spec sampleOnDuty 1 samplePatientTwo "2025-04-05 10:00" 7
        (by decide)).2 0 sampleDoctorOnDuty (by decide) (by decide) (by intro j d hj; omega)
    exact ⟨sys', h1, h2.trans (by decide)⟩
  · decide

/-! ## Cancelling, case by case -/

/-- C12: for a patient `p` at position `self`, `cancelAppointment` returns; when
`findAppointment` yields an appointment `a` (at position `i`) whose `patientID`
is the ID of `p` and whose status is `scheduled`, the appointment at `i`
becomes `a` with status `patient-cancelled` and every other field as before,
every other position of the collection holds what it held, and nothing else
in the state changes; in every other case (no appointment found, the
appointment belongs to another patient, or its status is not `scheduled`) the
whole state is unchanged. -/
theorem cancelAppointment_spec (sys : HospitalSystem) (self : Nat) (p : Patient)
    (aptID : String) (hp : sys.patients[self]? = some p) :
    (∀ (i : Nat) (a : Appointment), sys.findAppointment aptID = some i →
        sys.appointments[i]? = some a → a.patientID = p.userID → a.status = "scheduled" →
        ∃ sys' : HospitalSystem,
          Patient.cancelAppointment sys self aptID = some (sys', .cancelled) ∧
          sys'.appointments[i]? = some { a with status := "patient-cancelled" } ∧
          (∀ j : Nat, j ≠ i → sys'.appointments[j]? = sys.appointments[j]?) ∧
          sys'.appointments.length = sys.appointments.length ∧
          sys'.doctors = sys.doctors ∧ sys'.patients = sys.patients ∧
          sys'.admins = sys.admins) ∧
      ((¬ ∃ (i : Nat) (a : Appointment), sys.findAppointment aptID = some i ∧
          sys.appointments[i]? = some a ∧ a.patientID = p.userID ∧ a.status = "scheduled") →
        Patient.cancelAppointment sys self aptID = some (sys, .notFoundOrNotCancellable)) := by
  constructor
  · intro i a hi ha hpid hst
    refine ⟨{ sys with appointments := sys.appointments.set i (a.cancel "patient-cancelled") },
      ?_, ?_, ?_, ?_, rfl, rfl, rfl⟩
    · simp [Patient.cancelAppointment, hp, hi, ha, hpid, hst]
    · simp [List.getElem?_set, getElem?_lt_length ha, Appointment.cancel]
    · intro j hj
      exact List.getElem?_set_ne (Ne.symm hj)
    · simp
  · intro hno
    cases hi : sys.findAppointment aptID with
    | none => simp [Patient.cancelAppointment, hp, hi]
    | some i =>
      cases ha : sys.appointments[i]? with
      | none => simp [Patient.cancelAppointment, hp, hi, ha]
      | some a =>
        have hc : ¬ (a.patientID = p.userID ∧ a.status = "scheduled") :=
          fun hc => hno ⟨i, a, hi, ha, hc.1, hc.2⟩
        simp [Patient.cancelAppointment, hp, hi, ha, hc]

theorem cancelAppointment_spec_witness :
    sampleDoubleBooked.patients[1]? = some
        { samplePatientTwo with appointmentIDs := ["EMG-7"] } ∧
      (∃ sys' : HospitalSystem,
        Patient.cancelAppointment sampleDoubleBooked 1 "EMG-7" = some (sys', .cancelled) ∧
        sys'.appointments[1]? = some { sampleEmergency with status := "patient-cancelled" } ∧
        sys'.appointments[0]? = some sampleAppointment) ∧
      Patient.cancelAppointment sampleDoubleBooked 1 "42"
        = some (sampleDoubleBooked, .notFoundOrNotCancellable) := by
  have h := cancelAppointment_spec sampleDoubleBooked 1
    { samplePatientTwo with appointmentIDs := ["EMG-7"] } "EMG-7" (by decide)
  refine ⟨by decide, ?_, ?_⟩
  · obtain ⟨sys', h1, h2, h3, _⟩ :=
      h.1 1 sampleEmergency (by decide) (by decide) (by decide) (by decide)
    exact ⟨sys', h1, h2, (h3 0 (by decide)).trans (by decide)⟩
  · exact (cancelAppointment_spec sampleDoubleBooked 1
      { samplePatientTwo with appointmentIDs := ["EMG-7"] } "42" (by decide)).2 (by
        rintro ⟨i, a, hi, ha, hpid, _⟩
        have hi0 : sampleDoubleBooked.findAppointment "42" = some 0 := by decide
        rw [hi0] at hi
        injection hi with hi
        subst hi
        have ha0 : sampleDoubleBooked.appointments[0]? = some sampleAppointment := by decide
        rw [ha0] at ha
        injection ha with ha
        subst ha
        revert hpid
        decide)

/-! ## Booking, case by case -/

theorem findDoctor_isSome_iff (sys : HospitalSystem) (doctorID : String) :
    (sys.findDoctor doctorID).isSome = true ↔ ∃ d ∈ sys.doctors, d.userID = doctorID := by
  unfold HospitalSystem.findDoctor
  constructor
  · intro h
    obtain ⟨i, hi⟩ := Option.isSome_iff_exists.mp h
    obtain ⟨d, hd, hpd, _⟩ := firstIndex_some _ _ i hi
    exact ⟨d, List.getElem?_mem hd, by simpa using hpd⟩
  · rintro ⟨d, hd, hid⟩
    cases hf : firstIndex (fun doctor : Doctor => doctor.userID == doctorID) sys.doctors with
    | some i => rfl
    | none =>
      have := (firstIndex_none _ _).mp hf d hd
      simp [hid] at this

/-- C13: for a patient `p` at position `self`, `bookAppointment` returns, and it
succeeds exactly when some doctor has the requested `doctorID` and
`isSlotAvailable(doctorID, dateTime)` holds. On success it pushes exactly one
appointment with that `doctorID`, `patientID` the ID of `p`, that `dateTime`,
status `scheduled` and `isEmergency` false, pushes the new ID on the
`appointmentIDs` of `p` and changes nothing else; when no doctor has the ID,
or the slot is unavailable, the whole state is unchanged. -/
theorem bookAppointment_spec (sys : HospitalSystem) (self : Nat) (p : Patient)
    (doctorID dateTime : String) (rnd : Nat) (hp : sys.patients[self]? = some p) :
    ((∃ (sys' : HospitalSystem) (apptID : String),
          Patient.bookAppointment sys self doctorID dateTime rnd
            = some (sys', .booked apptID)) ↔
        (∃ d ∈ sys.doctors, d.userID = doctorID) ∧
          sys.isSlotAvailable doctorID dateTime = true) ∧
      ((∃ d ∈ sys.doctors, d.userID = doctorID) →
        sys.isSlotAvailable doctorID dateTime = true →
        ∃ sys' : HospitalSystem,
          Patient.bookAppointment sys self doctorID dateTime rnd
            = some (sys', .booked (toString (rnd % 100000))) ∧
          sys'.appointments = sys.appointments ++
            [{ apptID := toString (rnd % 100000), doctorID := doctorID,
               patientID := p.userID, dateTime := dateTime, status := "scheduled",
               isEmergency := false }] ∧
          sys'.patients = sys.patients.set self
            { p with appointmentIDs := p.appointmentIDs ++ [toString (rnd % 100000)] } ∧
          sys'.patients[self]? = some
            { p with appointmentIDs := p.appointmentIDs ++ [toString (rnd % 100000)] } ∧
          sys'.doctors = sys.doctors ∧ sys'.admins = sys.admins) ∧
      ((¬ ∃ d ∈ sys.doctors, d.userID = doctorID) →
        Patient.bookAppointment sys self doctorID dateTime rnd = some (sys, .doctorNotFound)) ∧
      ((∃ d ∈ sys.doctors, d.userID = doctorID) →
        sys.isSlotAvailable doctorID dateTime = false →
        Patient.bookAppointment sys self doctorID dateTime rnd
          = some (sys, .slotUnavailable)) := by
  have success : (∃ d ∈ sys.doctors, d.userID = doctorID) →
      sys.isSlotAvailable doctorID dateTime = true →
      ∃ sys' : HospitalSystem,
        Patient.bookAppointment sys self doctorID dateTime rnd
          = some (sys', .booked (toString (rnd % 100000))) ∧
        sys'.appointments = sys.appointments ++
          [{ apptID := toString (rnd % 100000), doctorID := doctorID,
             patientID := p.userID, dateTime := dateTime, status := "scheduled",
             isEmergency := false }] ∧
        sys'.patients = sys.patients.set self
          { p with appointmentIDs := p.appointmentIDs ++ [toString (rnd % 100000)] } ∧
        sys'.patients[self]? = some
          { p with appointmentIDs := p.appointmentIDs ++ [toString (rnd % 100000)] } ∧
        sys'.doctors = sys.doctors ∧ sys'.admins = sys.admins := by
    intro hd hs
    obtain ⟨i, hi⟩ := Option.isSome_iff_exists.mp ((findDoctor_isSome_iff sys doctorID).mpr hd)
    refine ⟨{ sys with
        appointments := sys.appointments ++
          [{ apptID := toString (rnd % 100000), doctorID := doctorID,
             patientID := p.userID, dateTime := dateTime, status := "scheduled",
             isEmergency := false }]
        patients := sys.patients.set self
          { p with appointmentIDs := p.appointmentIDs ++ [toString (rnd % 100000)] } },
      by simp only [Patient.bookAppointment, hp, hi, hs, if_true], rfl, rfl, ?_, rfl, rfl⟩
    simp [List.getElem?_set, getElem?_lt_length hp]
  refine ⟨?_, success, ?_, ?_⟩
  · constructor
    · rintro ⟨sys', apptID, h⟩
      obtain ⟨_, _, hd, hs, _⟩ := bookAppointment_booked h
      exact ⟨(findDoctor_isSome_iff sys doctorID).mp hd, hs⟩
    · rintro ⟨hd, hs⟩
      obtain ⟨sys', h, _⟩ := success hd hs
      exact ⟨sys', _, h⟩
  · intro hd
    have hnone : sys.findDoctor doctorID = none := by
      cases hf : sys.findDoctor doctorID with
      | none => rfl
      | some i =>
        exact absurd ((findDoctor_isSome_iff sys doctorID).mp (by rw [hf]; rfl)) hd
    simp only [Patient.bookAppointment, hp, hnone]
  · intro hd hs
    obtain ⟨i, hi⟩ := Option.isSome_iff_exists.mp ((findDoctor_isSome_iff sys doctorID).mpr hd)
    simp [Patient.bookAppointment, hp, hi, hs]

theorem bookAppointment_spec_witness :
    sampleBooked.patients[1]? = some samplePatientTwo ∧
      (∃ sys' : HospitalSystem,
        Patient.bookAppointment sampleBooked 1 "D1" "2025-04-05 11:00" 77
          = some (sys', .booked "77") ∧
        sys'.appointments =
          [sampleAppointment,
           { apptID := "77", doctorID := "D1", patientID := "P2",
             dateTime := "2025-04-05 11:00", status := "scheduled" }]) ∧
      Patient.bookAppointment sampleBooked 1 "D9" "2025-04-05 11:00" 77
        = some (sampleBooked, .doctorNotFound) ∧
      Patient.bookAppointment sampleBooked 1 "D1" "2025-04-05 10:00" 77
        = some (sampleBooked, .slotUnavailable) := by
  have h := bookAppointment_spec sampleBooked 1 samplePatientTwo "D1" "2025-04-05 11:00" 77
    (by decide)
  refine ⟨by decide, ?_, by decide, by decide⟩
  obtain ⟨sys', h1, h2, _⟩ :=
    h.2.1 ⟨{ sampleDoctorOnDuty with onEmergencyDuty := false }, by decide, by decide⟩
      (by decide)
  exact ⟨sys', h1, h2.trans (by decide)⟩

/-! ## Reading back what was written -/

theorem splitAtDelim_field (delim : Char) :
    ∀ (f rest : List Char), delim ∉ f → splitAtDelim delim (f ++ delim :: rest) = (f, rest) := by
  intro f
  induction f with
  | nil => intro rest _; simp [splitAtDelim]
  | cons c cs ih =>
    intro rest h
    have hc : c ≠ delim := fun e => h (by rw [e]; exact List.mem_cons_self _ _)
    have hcs : delim ∉ cs := fun e => h (List.mem_cons_of_mem _ e)
    simp [splitAtDelim, hc, ih rest hcs]

theorem splitAtDelim_last (delim : Char) :
    ∀ f : List Char, delim ∉ f → splitAtDelim delim f = (f, []) := by
  intro f
  induction f with
  | nil => intro _; rfl
  | cons c cs ih =>
    intro h
    have hc : c ≠ delim := fun e => h (by rw [e]; exact List.mem_cons_self _ _)
    have hcs : delim ∉ cs := fun e => h (List.mem_cons_of_mem _ e)
    simp [splitAtDelim, hc, ih hcs]

theorem getline_field (delim : Char) (f : String) (rest : List Char) (h : delim ∉ f.data) :
    getline delim (f.data ++ delim :: rest) = some (f, rest) := by
  have hs := splitAtDelim_field delim f.data rest h
  cases hl : f.data ++ delim :: rest with
  | nil => simp at hl
  | cons c cs =>
    rw [hl] at hs
    simp only [getline, hs]

theorem getline_last (delim : Char) (f : String) (hne : f.data ≠ []) (h : delim ∉ f.data) :
    getline delim f.data = some (f, []) := by
  have hs := splitAtDelim_last delim f.data h
  cases hl : f.data with
  | nil => exact absurd hl hne
  | cons c cs =>
    rw [hl] at hs
    simp only [getline, hs]
    rw [← hl]

theorem plainField_iff (s : String) :
    plainField s = true ↔ pipe ∉ s.data ∧ newline ∉ s.data := by
  simp only [plainField, List.all_eq_true, Bool.and_eq_true, bne_iff_ne, ne_eq]
  constructor
  · intro h
    exact ⟨fun hm => (h _ hm).1 rfl, fun hm => (h _ hm).2 rfl⟩
  · rintro ⟨h1, h2⟩ c hc
    exact ⟨fun e => h1 (e ▸ hc), fun e => h2 (e ▸ hc)⟩

theorem lastField_iff (s : String) :
    lastField s = true ↔ s.data ≠ [] ∧ newline ∉ s.data := by
  simp only [lastField, List.all_eq_true, Bool.and_eq_true, bne_iff_ne, ne_eq,
    Bool.not_eq_true', List.isEmpty_eq_false]
  constructor
  · rintro ⟨h0, h⟩
    exact ⟨h0, fun hm => h _ hm rfl⟩
  · rintro ⟨h0, h2⟩
    exact ⟨h0, fun c hc e => h2 (e ▸ hc)⟩

theorem parseFour_record (a b c d : String) (ha : plainField a = true)
    (hb : plainField b = true) (hc : plainField c = true) (hd : lastField d = true) :
    parseFour (a ++ sep ++ b ++ sep ++ c ++ sep ++ d) = some (a, b, c, d) := by
  have e : (a ++ sep ++ b ++ sep ++ c ++ sep ++ d).data =
      a.data ++ pipe :: (b.data ++ pipe :: (c.data ++ pipe :: d.data)) := by
    simp [sep, List.append_assoc]
  unfold parseFour
  rw [e, getline_field pipe a _ ((plainField_iff a).mp ha).1]
  simp only [Option.some_bind]
  rw [getline_field pipe b _ ((plainField_iff b).mp hb).1]
  simp only [Option.some_bind]
  rw [getline_field pipe c _ ((plainField_iff c).mp hc).1]
  simp only [Option.some_bind]
  rw [getline_last newline d ((lastField_iff d).mp hd).1 ((lastField_iff d).mp hd).2]
  rfl

theorem parseAppointment_record (a : Appointment) (h1 : plainField a.apptID = true)
    (h2 : plainField a.doctorID = true) (h3 : plainField a.patientID = true)
    (h4 : plainField a.dateTime = true) (h5 : plainField a.status = true) :
    parseAppointment (appointmentRecord a) = some a := by
  have hflag : lastField (if a.isEmergency then "1" else "0") = true := by
    cases a.isEmergency <;> decide
  have e : (appointmentRecord a).data =
      a.apptID.data ++ pipe :: (a.doctorID.data ++ pipe :: (a.patientID.data ++ pipe ::
        (a.dateTime.data ++ pipe :: (a.status.data ++ pipe ::
          (if a.isEmergency then "1" else "0").data)))) := by
    simp [appointmentRecord, sep, List.append_assoc]
  unfold parseAppointment
  rw [e, getline_field pipe a.apptID _ ((plainField_iff _).mp h1).1]
  simp only [Option.some_bind]
  rw [getline_field pipe a.doctorID _ ((plainField_iff _).mp h2).1]
  simp only [Option.some_bind]
  rw [getline_field pipe a.patientID _ ((plainField_iff _).mp h3).1]
  simp only [Option.some_bind]
  rw [getline_field pipe a.dateTime _ ((plainField_iff _).mp h4).1]
  simp only [Option.some_bind]
  rw [getline_field pipe a.status _ ((plainField_iff _).mp h5).1]
  simp only [Option.some_bind]
  rw [getline_last newline _ ((lastField_iff _).mp hflag).1 ((lastField_iff _).mp hflag).2]
  simp only [Option.some_bind]
  cases a with
  | mk apptID doctorID patientID dateTime status isEmergency =>
    cases isEmergency <;> rfl

theorem whileGetline_records :
    ∀ records : List String, (∀ r ∈ records, newline ∉ r.data) →
      ∀ fuel : Nat, (writeRecords records).data.length ≤ fuel →
        whileGetline fuel (writeRecords records).data = records := by
  intro records
  induction records with
  | nil =>
    intro _ fuel _
    cases fuel with
    | zero => rfl
    | succ k => rfl
  | cons r rest ih =>
    intro hr fuel hfuel
    have e : (writeRecords (r :: rest)).data = r.data ++ newline :: (writeRecords rest).data := by
      simp [writeRecords, endl]
    rw [e] at hfuel ⊢
    rw [List.length_append, List.length_cons] at hfuel
    cases fuel with
    | zero => omega
    | succ k =>
      unfold whileGetline
      rw [getline_field newline r _ (hr r (List.mem_cons_self _ _))]
      simp only
      rw [ih (fun x hx => hr x (List.mem_cons_of_mem _ hx)) k (by omega)]

theorem splitAtDelim_rest_length (delim : Char) :
    ∀ l : List Char, (splitAtDelim delim l).2.length ≤ l.length := by
  intro l
  induction l with
  | nil => simp [splitAtDelim]
  | cons c cs ih =>
    unfold splitAtDelim
    by_cases h : c = delim
    · simp [h]
    · simp only [h, if_false, List.length_cons]
      omega

theorem getline_rest_length {delim : Char} {unread : List Char} {line : String}
    {rest : List Char} (h : getline delim unread = some (line, rest)) :
    rest.length < unread.length := by
  cases unread with
  | nil => simp [getline] at h
  | cons c cs =>
    simp only [getline, Option.some.injEq, Prod.mk.injEq] at h
    rw [← h.2]
    unfold splitAtDelim
    by_cases hc : c = delim
    · simp [hc]
    · simp only [hc, if_false, List.length_cons]
      have := splitAtDelim_rest_length delim cs
      omega

/-- The fuel of `readLines` is enough: with at least as much fuel as there are
unread characters, the loop reads the same lines whatever the fuel, so it
stops because `getline` fails and not because the fuel is used up. -/
theorem whileGetline_fuel :
    ∀ (fuel₁ fuel₂ : Nat) (unread : List Char), unread.length ≤ fuel₁ →
      unread.length ≤ fuel₂ → whileGetline fuel₁ unread = whileGetline fuel₂ unread := by
  intro fuel₁
  induction fuel₁ with
  | zero =>
    intro fuel₂ unread h₁ _
    have hnil : unread = [] := List.length_eq_zero.mp (Nat.le_zero.mp h₁)
    subst hnil
    cases fuel₂ <;> rfl
  | succ k ih =>
    intro fuel₂ unread h₁ h₂
    cases fuel₂ with
    | zero =>
      have hnil : unread = [] := List.length_eq_zero.mp (Nat.le_zero.mp h₂)
      subst hnil
      rfl
    | succ m =>
      unfold whileGetline
      cases hg : getline newline unread with
      | none => rfl
      | some r =>
        obtain ⟨line, rest⟩ := r
        have hlt := getline_rest_length hg
        simp only
        rw [ih m rest (by omega) (by omega)]

theorem readLines_writeRecords (records : List String)
    (h : ∀ r ∈ records, newline ∉ r.data) : readLines (writeRecords records) = records :=
  whileGetline_records records h _ (Nat.le_refl _)

theorem loadRecords_written {α β : Type} (parse : String → Option β) (record : α → String)
    (build : α → β) (l : List α) (hline : ∀ x ∈ l, newline ∉ (record x).data)
    (hparse : ∀ x ∈ l, parse (record x) = some (build x)) :
    loadRecords parse (some (writeRecords (l.map record))) = l.map build := by
  show List.filterMap parse (readLines (writeRecords (l.map record))) = l.map build
  rw [readLines_writeRecords _ (by
    intro r hr
    obtain ⟨x, hx, rfl⟩ := List.mem_map.mp hr
    exact hline x hx)]
  clear hline
  induction l with
  | nil => rfl
  | cons x rest ih =>
    rw [List.map_cons, List.filterMap_cons, hparse x (List.mem_cons_self _ _)]
    simp only [List.map_cons]
    rw [ih (fun y hy => hparse y (List.mem_cons_of_mem _ hy))]

theorem pipe_ne_newline : pipe ≠ newline := by decide

theorem record_four_no_newline (a b c d : String) (ha : plainField a = true)
    (hb : plainField b = true) (hc : plainField c = true) (hd : lastField d = true) :
    newline ∉ (a ++ sep ++ b ++ sep ++ c ++ sep ++ d).data := by
  have h1 := ((plainField_iff a).mp ha).2
  have h2 := ((plainField_iff b).mp hb).2
  have h3 := ((plainField_iff c).mp hc).2
  have h4 := ((lastField_iff d).mp hd).2
  have hp : ¬ newline = pipe := fun e => pipe_ne_newline e.symm
  simp [sep, h1, h2, h3, h4, hp]

theorem appointmentRecord_no_newline (a : Appointment) (h1 : plainField a.apptID = true)
    (h2 : plainField a.doctorID = true) (h3 : plainField a.patientID = true)
    (h4 : plainField a.dateTime = true) (h5 : plainField a.status = true) :
    newline ∉ (appointmentRecord a).data := by
  have g1 := ((plainField_iff _).mp h1).2
  have g2 := ((plainField_iff _).mp h2).2
  have g3 := ((plainField_iff _).mp h3).2
  have g4 := ((plainField_iff _).mp h4).2
  have g5 := ((plainField_iff _).mp h5).2
  have g6 : newline ∉ (if a.isEmergency then "1" else "0").data := by
    cases a.isEmergency <;> decide
  have hp : ¬ newline = pipe := fun e => pipe_ne_newline e.symm
  simp only [appointmentRecord, sep, String.data_append, List.mem_append, List.mem_singleton,
    not_or]
  exact ⟨⟨⟨⟨⟨⟨⟨⟨⟨⟨g1, hp⟩, g2⟩, hp⟩, g3⟩, hp⟩, g4⟩, hp⟩, g5⟩, hp⟩, g6⟩

/-- The state `loadFromFile` builds, at start-up, from the files `saveToFile`
left for a state whose records can be told apart: every doctor and patient
rebuilt by its constructor from the saved strings, the appointments as they
were, and the built-in administrator. -/
theorem loadFromFile_saveToFile (hasher : String → Nat) (sys : HospitalSystem)
    (hsafe : snapshotSafe sys = true) :
    HospitalSystem.loadFromFile hasher sys.saveToFile emptySystem =
      { doctors := sys.doctors.map
          (fun d => Doctor.new hasher d.userID d.name d.password d.specialization)
        patients := sys.patients.map
          (fun p => Patient.new hasher p.userID p.name p.password p.medicalHistory)
        appointments := sys.appointments
        admins := [Admin.new hasher "admin1" "System Administrator" "admin123"] } := by
  simp only [snapshotSafe, Bool.and_eq_true, List.all_eq_true] at hsafe
  obtain ⟨⟨hdoc, hpat⟩, happt⟩ := hsafe
  have hd := loadRecords_written
    (fun line => (parseFour line).map (fun f => Doctor.new hasher f.1 f.2.1 f.2.2.2 f.2.2.1))
    doctorRecord (fun d => Doctor.new hasher d.userID d.name d.password d.specialization)
    sys.doctors
    (fun d hm => record_four_no_newline _ _ _ _ (hdoc d hm).1.1.1 (hdoc d hm).1.1.2
      (hdoc d hm).1.2 (hdoc d hm).2)
    (fun d hm => by
      show (parseFour (d.userID ++ sep ++ d.name ++ sep ++ d.specialization ++ sep ++
        d.password)).map _ = _
      rw [parseFour_record _ _ _ _ (hdoc d hm).1.1.1 (hdoc d hm).1.1.2 (hdoc d hm).1.2
        (hdoc d hm).2]
      rfl)
  have hp := loadRecords_written
    (fun line => (parseFour line).map (fun f => Patient.new hasher f.1 f.2.1 f.2.2.2 f.2.2.1))
    patientRecord (fun p => Patient.new hasher p.userID p.name p.password p.medicalHistory)
    sys.patients
    (fun p hm => record_four_no_newline _ _ _ _ (hpat p hm).1.1.1 (hpat p hm).1.1.2
      (hpat p hm).1.2 (hpat p hm).2)
    (fun p hm => by
      show (parseFour (p.userID ++ sep ++ p.name ++ sep ++ p.medicalHistory ++ sep ++
        p.password)).map _ = _
      rw [parseFour_record _ _ _ _ (hpat p hm).1.1.1 (hpat p hm).1.1.2 (hpat p hm).1.2
        (hpat p hm).2]
      rfl)
  have ha := loadRecords_written parseAppointment appointmentRecord (fun a => a)
    sys.appointments
    (fun a hm => appointmentRecord_no_newline a (happt a hm).1.1.1.1 (happt a hm).1.1.1.2
      (happt a hm).1.1.2 (happt a hm).1.2 (happt a hm).2)
    (fun a hm => parseAppointment_record a (happt a hm).1.1.1.1 (happt a hm).1.1.1.2
      (happt a hm).1.1.2 (happt a hm).1.2 (happt a hm).2)
  simp only [HospitalSystem.loadFromFile, HospitalSystem.saveToFile, emptySystem, hd, hp, ha,
    List.nil_append, List.map_id']

/-- What the round trip does to the stored digests: each is hashed once more,
because `loadFromFile` hands the saved digest to the constructor as the
password. -/
theorem loadFromFile_rehashes (hasher : String → Nat) (sys : HospitalSystem)
    (hsafe : snapshotSafe sys = true) :
    (HospitalSystem.loadFromFile hasher sys.saveToFile emptySystem).doctors.map
        (fun d => d.password) = sys.doctors.map (fun d => hashPassword hasher d.password) ∧
      (HospitalSystem.loadFromFile hasher sys.saveToFile emptySystem).patients.map
        (fun p => p.password) = sys.patients.map (fun p => hashPassword hasher p.password) := by
  rw [loadFromFile_saveToFile hasher sys hsafe]
  exact ⟨(List.map_map _ _ _).trans rfl, (List.map_map _ _ _).trans rfl⟩

/-! ## The snapshot round trip -/

/-- C11, as the code has it: for a state in which the fields written before a
`'|'` hold neither `'|'` nor a line break and every stored digest is not empty
and holds no line break, `saveToFile` followed by `loadFromFile` into an empty
system gives as many doctors, patients and appointments, in the same order,
with for each doctor the same `userID`, `name` and `specialization`, for each
patient the same `userID`, `name` and `medicalHistory`, and for each
appointment the same `apptID`, `doctorID`, `patientID`, `dateTime`, `status`
and `isEmergency`. -/
theorem snapshot_round_trip (hasher : String → Nat) (sys : HospitalSystem)
    (hsafe : snapshotSafe sys = true) :
    (HospitalSystem.loadFromFile hasher sys.saveToFile emptySystem).doctors.map
        (fun d => (d.userID, d.name, d.specialization))
        = sys.doctors.map (fun d => (d.userID, d.name, d.specialization)) ∧
      (HospitalSystem.loadFromFile hasher sys.saveToFile emptySystem).patients.map
        (fun p => (p.userID, p.name, p.medicalHistory))
        = sys.patients.map (fun p => (p.userID, p.name, p.medicalHistory)) ∧
      (HospitalSystem.loadFromFile hasher sys.saveToFile emptySystem).appointments
        = sys.appointments := by
  rw [loadFromFile_saveToFile hasher sys hsafe]
  refine ⟨?_, ?_, rfl⟩
  · exact (List.map_map _ _ _).trans rfl
  · exact (List.map_map _ _ _).trans rfl

theorem snapshot_round_trip_witness :
    snapshotSafe sampleSnapshot = true ∧
      (HospitalSystem.loadFromFile sampleHasher sampleSnapshot.saveToFile emptySystem).doctors.map
        (fun d => (d.userID, d.name, d.specialization)) = [("D1", "Asha Rao", "Cardiology")] ∧
      (HospitalSystem.loadFromFile sampleHasher sampleSnapshot.saveToFile emptySystem).appointments
        = [sampleAppointment, sampleEmergency] :=
  ⟨by decide,
   (snapshot_round_trip sampleHasher sampleSnapshot (by decide)).1.trans (by decide),
   (snapshot_round_trip sampleHasher sampleSnapshot (by decide)).2.2.trans (by decide)⟩

/-- C11 fails as stated, in two ways. The doctor of `samplePiped` is named
`Rao|Asha`: after `saveToFile` and `loadFromFile` the name is `Rao` and the
specialization `Asha`. The doctor of `sampleSnapshot` has no such character in
any field, and the stored digest `308177` comes back as `7718658621`. -/
theorem snapshot_round_trip_counterexample :
    (samplePiped.doctors.map (fun d => (d.name, d.specialization))
        = [("Rao|Asha", "Cardiology")] ∧
      (HospitalSystem.loadFromFile sampleHasher samplePiped.saveToFile emptySystem).doctors.map
        (fun d => (d.name, d.specialization)) = [("Rao", "Asha")]) ∧
      (sampleSnapshot.doctors.map (fun d => d.password) = ["308177"] ∧
        (HospitalSystem.loadFromFile sampleHasher sampleSnapshot.saveToFile
          emptySystem).doctors.map (fun d => d.password) = ["7718658621"]) := by
  decide

end HospitalScheduling
